import Mathlib

/-! Planning-poker session server (`server.js`).

A shallow embedding of the Socket.IO event handlers of `server.js` and of the
process-wide `sessions` object they mutate, followed by theorems about them.

Modelling conventions.

* A JavaScript plain object whose keys are strings is a list of key/value
  entries in property-enumeration order (canonical array indices first, in
  ascending order, then the remaining keys in insertion order).
* `sessions` is created as `{}`, so reading `sessions[k]` for a key that is
  not an own property falls through to `Object.prototype`; the members found
  there are all truthy and none of them is a room.  `lookupSession` models
  that read.
* Keys of `players` are connection identifiers (`socket.id`), minted by the
  transport library; they are never names of `Object.prototype` members, so
  reads of `players[socket.id]` are own-property reads.
* A handler that raises a `TypeError` returns `none`: the exception is not
  caught anywhere, so no state is modelled after it.
* `console.log` and `socket.join` have no effect on `sessions` and are left
  out; every `emit` is recorded in the list of emissions a handler returns.
-/

namespace PokerPlanning

/-! ## Values -/

/-- A vote as carried by `submit_vote`: `null` is the value a player holds
when no vote is recorded; numbers are kept exact. -/
inductive Vote where
  | null
  | number (q : ℚ)
  | nan
  | text (s : String)
deriving DecidableEq

/-- An entry `{ id, name, vote, hasVoted }` of `players`. -/
structure Player where
  id : String
  name : String
  vote : Vote
  hasVoted : Bool
deriving DecidableEq

/-- A session object stored in `sessions`. -/
structure Room where
  id : String
  name : String
  currentStory : String
  status : String
  players : List (String × Player)
  roundActive : Bool
  cardsRevealed : Bool
deriving DecidableEq

/-- The `sessions` object: own properties in enumeration order. -/
abbrev Registry := List (String × Room)

/-! ## Plain objects -/

/-- The number a property key stands for when it is a canonical array index
(decimal digits, no leading zero, below `2^32 - 1`). -/
def arrayIndex (k : String) : Option Nat :=
  let cs := k.data
  if cs ≠ [] ∧ cs.all Char.isDigit = true ∧ (cs.head? ≠ some '0' ∨ cs.length = 1) then
    let n := cs.foldl (fun acc c => 10 * acc + (c.toNat - 48)) 0
    if n < 4294967295 then some n else none
  else none

/-- Own-property read `o[k]` (`none` when `k` is not an own property). -/
def getOwn {α : Type} : List (String × α) → String → Option α
  | [], _ => none
  | (k', v) :: rest, k => if k' = k then some v else getOwn rest k

/-- Own-property names of `o`, in enumeration order. -/
def ownKeys {α : Type} (o : List (String × α)) : List String := o.map Prod.fst

/-- Assignment `o[k] = v` when `k` is already an own property: the value is
replaced and the property keeps its place. -/
def replaceOwn {α : Type} : List (String × α) → String → α → List (String × α)
  | [], _, _ => []
  | (k', v') :: rest, k, v =>
    if k' = k then (k', v) :: rest else (k', v') :: replaceOwn rest k v

/-- Assignment `o[k] = v` when `k` is not yet an own property: an array index
goes before the first larger index or the first other key, any other key goes
last. -/
def insertOwn {α : Type} : List (String × α) → String → α → List (String × α)
  | [], k, v => [(k, v)]
  | (k', v') :: rest, k, v =>
    match arrayIndex k, arrayIndex k' with
    | some n, some n' =>
      if n < n' then (k, v) :: (k', v') :: rest else (k', v') :: insertOwn rest k v
    | some _, none => (k, v) :: (k', v') :: rest
    | none, _ => (k', v') :: insertOwn rest k v

/-- Assignment `o[k] = v`. -/
def setOwn {α : Type} (o : List (String × α)) (k : String) (v : α) : List (String × α) :=
  if (getOwn o k).isSome then replaceOwn o k v else insertOwn o k v

/-- The statement `delete o[k]`. -/
def deleteOwn {α : Type} (o : List (String × α)) (k : String) : List (String × α) :=
  o.filter (fun e => decide (e.1 ≠ k))

/-- Names of the members every plain object inherits from `Object.prototype`. -/
def objectPrototypeNames : List String :=
  ["constructor", "__defineGetter__", "__defineSetter__", "hasOwnProperty",
   "__lookupGetter__", "__lookupSetter__", "isPrototypeOf", "propertyIsEnumerable",
   "toString", "valueOf", "__proto__", "toLocaleString"]

/-- What the expression `sessions[sessionId]` evaluates to. -/
inductive Slot where
  /-- An own property: a room. -/
  | own (room : Room)
  /-- A member inherited from `Object.prototype`: truthy, without `players`,
  `roundActive` or `cardsRevealed`. -/
  | inherited
  /-- The value `undefined`. -/
  | absent
deriving DecidableEq

/-- The read `sessions[sessionId]`. -/
def lookupSession (sessions : Registry) (sessionId : String) : Slot :=
  match getOwn sessions sessionId with
  | some room => Slot.own room
  | none => if sessionId ∈ objectPrototypeNames then Slot.inherited else Slot.absent

/-! ## Emissions -/

/-- The three outbound events. -/
inductive Msg where
  | session_state_update (room : Room)
  | session_error (text : String)
  | vote_error (text : String)
deriving DecidableEq

/-- One call of `emit`: `socket.emit` reaches the originating connection only,
`io.to(sessionId).emit` is addressed to the Socket.IO room `sessionId`. -/
inductive Emit where
  | toSocket (socketId : String) (msg : Msg)
  | toRoom (sessionId : String) (msg : Msg)
deriving DecidableEq

/-- Result of running a handler: the new `sessions` and the emissions in
order, or `none` when the handler raises. -/
abbrev Outcome := Option (Registry × List Emit)

/-- Whether an emission is a `session_state_update`. -/
def Emit.isStateUpdate : Emit → Bool
  | Emit.toRoom _ (Msg.session_state_update _) => true
  | Emit.toSocket _ (Msg.session_state_update _) => true
  | _ => false

/-- Whether an emission is a `session_error` or a `vote_error`. -/
def Emit.isError : Emit → Bool
  | Emit.toRoom _ (Msg.session_state_update _) => false
  | Emit.toSocket _ (Msg.session_state_update _) => false
  | _ => true

/-! ## Auxiliary functions of the server -/

/-- The character of a base-36 digit, as `Number.prototype.toString(36)`
writes it. -/
def base36Digit (d : Fin 36) : Char :=
  if d.val < 10 then Char.ofNat (48 + d.val) else Char.ofNat (87 + d.val)

/-- The function `generateUniqueId`: `Math.random().toString(36).substring(2, 9)`.
The argument is the sequence of base-36 fractional digits of the number drawn
by `Math.random()`, whose `toString(36)` is `0.` followed by those digits (or
`0` alone when there are none); `substring(2, 9)` keeps the first seven. -/
def generateUniqueId (fraction : List (Fin 36)) : String :=
  String.mk ((fraction.take 7).map base36Digit)

/-- JavaScript truthiness of an optional string: `undefined` and the empty
string are falsy. -/
def truthy : Option String → Bool
  | none => false
  | some s => decide (s ≠ "")

/-- The loop `Object.values(players).forEach(player => { player.vote = null;
player.hasVoted = false; })`. -/
def clearVotes (players : List (String × Player)) : List (String × Player) :=
  players.map (fun e => (e.1, { e.2 with vote := Vote.null, hasVoted := false }))

/-- The object literal stored by `join_session` for a new session. -/
def newSession (sessionId : String) : Room :=
  { id := sessionId
    name := "Sesión " ++ sessionId
    currentStory := ""
    status := "Esperando jugadores..."
    players := []
    roundActive := false
    cardsRevealed := false }

/-! ## Event handlers -/

/-- The object literal stored by `join_session` in `players[socket.id]`;
`draw` is the number `Math.random()` returns when the placeholder name is
generated. -/
def newPlayer (socketId : String) (playerName : Option String) (draw : List (Fin 36)) : Player :=
  { id := socketId
    name := if truthy playerName then playerName.getD "" else "Jugador " ++ generateUniqueId draw
    vote := Vote.null
    hasVoted := false }

/-- Handler of `join_session` on the connection `socketId`.  `draw1` and
`draw2` are the numbers `Math.random()` returns to the two possible calls of
`generateUniqueId` (session id, placeholder player name). -/
def join_session (sessions : Registry) (socketId : String) (sessionId playerName : Option String)
    (draw1 draw2 : List (Fin 36)) : Outcome :=
  let sid : String := if truthy sessionId then sessionId.getD "" else generateUniqueId draw1
  let sessions1 : Registry :=
    if truthy sessionId then sessions else setOwn sessions sid (newSession sid)
  match lookupSession sessions1 sid with
  | Slot.absent => some (sessions1, [Emit.toSocket socketId (Msg.session_error "La sesión no existe.")])
  | Slot.inherited => none
  | Slot.own room =>
    let room1 : Room :=
      { room with players := setOwn room.players socketId (newPlayer socketId playerName draw2) }
    some (replaceOwn sessions1 sid room1, [Emit.toRoom sid (Msg.session_state_update room1)])

/-- Handler of `start_round`. -/
def start_round (sessions : Registry) (sessionId story : String) : Outcome :=
  match lookupSession sessions sessionId with
  | Slot.absent => some (sessions, [])
  | Slot.inherited => none
  | Slot.own room =>
    let room1 : Room :=
      { room with
        currentStory := story
        status := "Votación abierta"
        roundActive := true
        cardsRevealed := false
        players := clearVotes room.players }
    some (replaceOwn sessions sessionId room1, [Emit.toRoom sessionId (Msg.session_state_update room1)])

/-- Handler of `submit_vote` on the connection `socketId`. -/
def submit_vote (sessions : Registry) (socketId sessionId : String) (vote : Vote) : Outcome :=
  match lookupSession sessions sessionId with
  | Slot.absent => some (sessions, [Emit.toSocket socketId (Msg.vote_error "No puedes votar en este momento.")])
  | Slot.inherited => some (sessions, [Emit.toSocket socketId (Msg.vote_error "No puedes votar en este momento.")])
  | Slot.own room =>
    if !room.roundActive || room.cardsRevealed then
      some (sessions, [Emit.toSocket socketId (Msg.vote_error "No puedes votar en este momento.")])
    else
      match getOwn room.players socketId with
      | none => some (sessions, [])
      | some player =>
        let room1 : Room :=
          { room with
            players := replaceOwn room.players socketId { player with vote := vote, hasVoted := true } }
        some (replaceOwn sessions sessionId room1, [Emit.toRoom sessionId (Msg.session_state_update room1)])

/-- Handler of `reveal_cards`. -/
def reveal_cards (sessions : Registry) (sessionId : String) : Outcome :=
  match lookupSession sessions sessionId with
  | Slot.absent => some (sessions, [])
  | Slot.inherited => some (sessions, [])
  | Slot.own room =>
    if !room.roundActive || room.cardsRevealed then some (sessions, [])
    else
      let room1 : Room := { room with cardsRevealed := true, status := "Cartas reveladas" }
      some (replaceOwn sessions sessionId room1, [Emit.toRoom sessionId (Msg.session_state_update room1)])

/-- Handler of `reset_round`. -/
def reset_round (sessions : Registry) (sessionId : String) : Outcome :=
  match lookupSession sessions sessionId with
  | Slot.absent => some (sessions, [])
  | Slot.inherited => none
  | Slot.own room =>
    let room1 : Room :=
      { room with
        currentStory := ""
        status := "Esperando votos..."
        roundActive := false
        cardsRevealed := false
        players := clearVotes room.players }
    some (replaceOwn sessions sessionId room1, [Emit.toRoom sessionId (Msg.session_state_update room1)])

/-- First statement of the body of the `disconnect` loop, for the session
`sessionId`: when `players[socket.id]` is set, delete it and broadcast the
session. -/
def removePlayer (socketId sessionId : String) (room : Room) : Room × List Emit :=
  if (getOwn room.players socketId).isSome then
    let room1 : Room := { room with players := deleteOwn room.players socketId }
    (room1, [Emit.toRoom sessionId (Msg.session_state_update room1)])
  else (room, [])

/-- Condition of the second statement of the body of the `disconnect` loop:
`Object.keys(players).length === 0 && !currentStory`. -/
def isAbandoned (room : Room) : Bool :=
  decide (room.players.length = 0) && decide (room.currentStory = "")

/-- The `for (const sessionId in sessions)` loop of the `disconnect` handler,
run on the entries of `sessions` in enumeration order; an iteration reads and
writes only the entry it visits, and deletes it when it is abandoned. -/
def disconnectSweep (socketId : String) : Registry → Registry × List Emit
  | [] => ([], [])
  | (sessionId, room) :: rest =>
    let visited := removePlayer socketId sessionId room
    let tail := disconnectSweep socketId rest
    if isAbandoned visited.1 then (tail.1, visited.2 ++ tail.2)
    else ((sessionId, visited.1) :: tail.1, visited.2 ++ tail.2)

/-- Handler of `disconnect` on the connection `socketId`. -/
def disconnect (sessions : Registry) (socketId : String) : Outcome :=
  some (disconnectSweep socketId sessions)

/-! ## Events and runs -/

/-- An inbound event together with the connection it arrives on. -/
inductive Event where
  | join_session (socketId : String) (sessionId playerName : Option String)
      (draw1 draw2 : List (Fin 36))
  | start_round (socketId sessionId story : String)
  | submit_vote (socketId sessionId : String) (vote : Vote)
  | reveal_cards (socketId sessionId : String)
  | reset_round (socketId sessionId : String)
  | disconnect (socketId : String)

/-- Dispatch of an event to its handler. -/
def handle (sessions : Registry) : Event → Outcome
  | Event.join_session c sid name d1 d2 => join_session sessions c sid name d1 d2
  | Event.start_round _ sid story => start_round sessions sid story
  | Event.submit_vote c sid vote => submit_vote sessions c sid vote
  | Event.reveal_cards _ sid => reveal_cards sessions sid
  | Event.reset_round _ sid => reset_round sessions sid
  | Event.disconnect c => disconnect sessions c

/-- The registry after a sequence of events, `none` as soon as a handler
raises. -/
def run (sessions : Registry) : List Event → Option Registry
  | [] => some sessions
  | e :: rest =>
    match handle sessions e with
    | none => none
    | some (sessions1, _) => run sessions1 rest

/-- Registries reachable from the empty `sessions` object. -/
def Reachable (sessions : Registry) : Prop := ∃ events, run [] events = some sessions

/-! ## Predicates used by the statements -/

/-- The flag `hasVoted` of a player agrees with the presence of a vote. -/
def Player.flagMatchesVote (p : Player) : Prop := p.hasVoted = true ↔ p.vote ≠ Vote.null

/-- Every player of every room has `hasVoted` exactly when `vote` is not
`null`. -/
def VotesConsistent (sessions : Registry) : Prop :=
  ∀ e ∈ sessions, ∀ q ∈ e.2.players, q.2.flagMatchesVote

/-- The event is not a `submit_vote` carrying `null`. -/
def Event.submitsVoteValue : Event → Bool
  | Event.submit_vote _ _ vote => decide (vote ≠ Vote.null)
  | _ => true

/-- The ways an event rewrites one room. -/
def RoomUpdate : Event → Room → Room → Prop
  | Event.join_session c _ _ _ _, room, room1 =>
    ∃ player : Player, player.vote = Vote.null ∧ player.hasVoted = false ∧
      room1 = { room with players := setOwn room.players c player }
  | Event.start_round _ _ story, room, room1 =>
    room1 = { room with
              currentStory := story
              status := "Votación abierta"
              roundActive := true
              cardsRevealed := false
              players := clearVotes room.players }
  | Event.submit_vote c _ vote, room, room1 =>
    room.roundActive = true ∧ room.cardsRevealed = false ∧ ∃ player : Player,
      room1 = { room with
                players := replaceOwn room.players c { player with vote := vote, hasVoted := true } }
  | Event.reveal_cards _ _, room, room1 =>
    room.roundActive = true ∧ room1 = { room with cardsRevealed := true, status := "Cartas reveladas" }
  | Event.reset_round _ _, room, room1 =>
    room1 = { room with
              currentStory := ""
              status := "Esperando votos..."
              roundActive := false
              cardsRevealed := false
              players := clearVotes room.players }
  | Event.disconnect c, room, room1 =>
    room1 = { room with players := deleteOwn room.players c }

/-- The event is a `join_session`. -/
def Event.isJoin : Event → Bool
  | Event.join_session _ _ _ _ _ => true
  | _ => false

/-- In every room, `cardsRevealed` implies `roundActive`. -/
def FlagsConsistent (sessions : Registry) : Prop :=
  ∀ e ∈ sessions, e.2.cardsRevealed = true → e.2.roundActive = true

/-- No room of the registry has both an empty player set and an empty
`currentStory`. -/
def NoAbandonedRoom (sessions : Registry) : Prop :=
  ∀ e ∈ sessions, isAbandoned e.2 = false

/-- The event cannot empty the `currentStory` of a room: it is neither a
`reset_round` nor a `start_round` with an empty story. -/
def Event.keepsStory : Event → Bool
  | Event.reset_round _ _ => false
  | Event.start_round _ _ story => decide (story ≠ "")
  | _ => true

/-- The event empties the `currentStory` of a session that exists and has no
player: it is a `reset_round`, or a `start_round` with an empty story, and the
session it names is in `sessions` with an empty `players`. -/
def emptiesDesertedRoom (sessions : Registry) : Event → Bool
  | Event.reset_round _ sessionId =>
    match getOwn sessions sessionId with
    | some room => decide (room.players.length = 0)
    | none => false
  | Event.start_round _ sessionId story =>
    decide (story = "") &&
      match getOwn sessions sessionId with
      | some room => decide (room.players.length = 0)
      | none => false
  | _ => false

/-- No event of the run empties the story of a session without players, each
event being looked at on the registry it is applied to. -/
def sparesDesertedRooms : Registry → List Event → Bool
  | _, [] => true
  | sessions, ev :: rest =>
    !emptiesDesertedRoom sessions ev &&
      match handle sessions ev with
      | none => true
      | some (sessions1, _) => sparesDesertedRooms sessions1 rest

/-- An object holds each of its own properties once. -/
def WellFormed (sessions : Registry) : Prop := (ownKeys sessions).Nodup

/-- The session an event names: the `sessionId` of `start_round`,
`submit_vote`, `reveal_cards` and `reset_round`, and that of a `join_session`
when it is truthy (otherwise the join creates a session under a generated id). -/
def Event.target : Event → Option String
  | Event.join_session _ sessionId _ _ _ => if truthy sessionId then sessionId else none
  | Event.start_round _ sessionId _ => some sessionId
  | Event.submit_vote _ sessionId _ => some sessionId
  | Event.reveal_cards _ sessionId => some sessionId
  | Event.reset_round _ sessionId => some sessionId
  | Event.disconnect _ => none

/-- What the handler of an event that names the session `sid` does, as a
function of the value read at `sessions[sid]`: it raises (`none`), or it emits
and leaves `sessions` alone (`some (none, out)`), or it emits and stores a new
value of the room (`some (some room1, out)`). -/
def targetedEffect (sid : String) : Event → Slot → Option (Option Room × List Emit)
  | Event.join_session c _ _ _ _, Slot.absent =>
    some (none, [Emit.toSocket c (Msg.session_error "La sesión no existe.")])
  | Event.join_session _ _ _ _ _, Slot.inherited => none
  | Event.join_session c _ playerName _ draw2, Slot.own room =>
    some (some { room with players := setOwn room.players c (newPlayer c playerName draw2) },
      [Emit.toRoom sid (Msg.session_state_update
        { room with players := setOwn room.players c (newPlayer c playerName draw2) })])
  | Event.start_round _ _ _, Slot.absent => some (none, [])
  | Event.start_round _ _ _, Slot.inherited => none
  | Event.start_round _ _ story, Slot.own room =>
    some (some { room with
                 currentStory := story
                 status := "Votación abierta"
                 roundActive := true
                 cardsRevealed := false
                 players := clearVotes room.players },
      [Emit.toRoom sid (Msg.session_state_update
        { room with
          currentStory := story
          status := "Votación abierta"
          roundActive := true
          cardsRevealed := false
          players := clearVotes room.players })])
  | Event.submit_vote c _ _, Slot.absent =>
    some (none, [Emit.toSocket c (Msg.vote_error "No puedes votar en este momento.")])
  | Event.submit_vote c _ _, Slot.inherited =>
    some (none, [Emit.toSocket c (Msg.vote_error "No puedes votar en este momento.")])
  | Event.submit_vote c _ vote, Slot.own room =>
    if !room.roundActive || room.cardsRevealed then
      some (none, [Emit.toSocket c (Msg.vote_error "No puedes votar en este momento.")])
    else
      match getOwn room.players c with
      | none => some (none, [])
      | some player =>
        some (some { room with
                     players := replaceOwn room.players c
                       { player with vote := vote, hasVoted := true } },
          [Emit.toRoom sid (Msg.session_state_update
            { room with
              players := replaceOwn room.players c
                { player with vote := vote, hasVoted := true } })])
  | Event.reveal_cards _ _, Slot.absent => some (none, [])
  | Event.reveal_cards _ _, Slot.inherited => some (none, [])
  | Event.reveal_cards _ _, Slot.own room =>
    if !room.roundActive || room.cardsRevealed then some (none, [])
    else
      some (some { room with cardsRevealed := true, status := "Cartas reveladas" },
        [Emit.toRoom sid (Msg.session_state_update
          { room with cardsRevealed := true, status := "Cartas reveladas" })])
  | Event.reset_round _ _, Slot.absent => some (none, [])
  | Event.reset_round _ _, Slot.inherited => none
  | Event.reset_round _ _, Slot.own room =>
    some (some { room with
                 currentStory := ""
                 status := "Esperando votos..."
                 roundActive := false
                 cardsRevealed := false
                 players := clearVotes room.players },
      [Emit.toRoom sid (Msg.session_state_update
        { room with
          currentStory := ""
          status := "Esperando votos..."
          roundActive := false
          cardsRevealed := false
          players := clearVotes room.players })])
  | Event.disconnect _, _ => some (none, [])

/-- The registry and emissions that result from a `targetedEffect` on the
session `sid`. -/
def applyEffect (sessions : Registry) (sid : String) :
    Option (Option Room × List Emit) → Outcome
  | none => none
  | some (none, out) => some (sessions, out)
  | some (some room1, out) => some (replaceOwn sessions sid room1, out)

/-- The registry after a handler stored `room1` under `sid`, or stored
nothing. -/
def storeRoom (sessions : Registry) (sid : String) : Option Room → Registry
  | none => sessions
  | some room1 => replaceOwn sessions sid room1

/-- The emission is addressed to the Socket.IO room `sid`. -/
def Emit.isToRoom (sid : String) : Emit → Bool
  | Emit.toRoom sessionId _ => decide (sessionId = sid)
  | Emit.toSocket _ _ => false

/-- The event is a `start_round` or a `reset_round` of the session `sid`. -/
def Event.restarts (sid : String) : Event → Bool
  | Event.start_round _ sessionId _ => decide (sessionId = sid)
  | Event.reset_round _ sessionId => decide (sessionId = sid)
  | _ => false

/-- The connection that joins, when the event is a `join_session`. -/
def Event.joiner : Event → Option String
  | Event.join_session socketId _ _ _ _ => some socketId
  | _ => none

/-- Whether the session `sid` exists and has a player keyed by `socketId`. -/
def holdsPlayer (sessions : Registry) (sid socketId : String) : Bool :=
  match getOwn sessions sid with
  | some room => (getOwn room.players socketId).isSome
  | none => false

/-- Number of `session_state_update` emissions addressed to the room `sid`. -/
def updatesFor (sid : String) (out : List Emit) : Nat :=
  (out.filter (fun m => m.isStateUpdate && m.isToRoom sid)).length

/-! ## Sample runs -/

/-- Alice joins without a session id (the generator yields `123`) and a round
is started on the story `Story A`. -/
def aliceStartsRound : List Event :=
  [Event.join_session "a" none (some "Alice") [1, 2, 3] [],
   Event.start_round "a" "123" "Story A"]

/-- The session `123` with Alice as only player, as the sample runs leave it. -/
def aliceRoom (status : String) (vote : Vote) (hasVoted roundActive cardsRevealed : Bool) : Room :=
  { id := "123", name := "Sesión 123", currentStory := "Story A", status := status,
    players := [("a", { id := "a", name := "Alice", vote := vote, hasVoted := hasVoted })],
    roundActive := roundActive, cardsRevealed := cardsRevealed }

/-- Two rooms whose only player is the connection `a`: `7` was never given a
story, `123` is voting on `Story A`. -/
def aliceAlone : Registry :=
  [("7", { newSession "7" with players := [("a", newPlayer "a" (some "Alice") [])] }),
   ("123", aliceRoom "Votación abierta" Vote.null false true false)]

/-- The session `123` as it is after Alice left it and the round was reset:
no player, no story. -/
def emptiedRoom : Room :=
  { id := "123", name := "Sesión 123", currentStory := "", status := "Esperando votos...",
    players := [], roundActive := false, cardsRevealed := false }

/-- The revealed session `123` after Bob joined it on the connection `b`:
Alice still holds her vote of 5. -/
def aliceAndBobRoom : Room :=
  { aliceRoom "Cartas reveladas" (Vote.number 5) true true true with
    players := [("a", { id := "a", name := "Alice", vote := Vote.number 5, hasVoted := true }),
                ("b", { id := "b", name := "Bob", vote := Vote.null, hasVoted := false })] }

/-! ## Lemmas on plain objects -/

theorem mem_of_getOwn {α : Type} {o : List (String × α)} {k : String} {v : α}
    (h : getOwn o k = some v) : (k, v) ∈ o := by
  induction o with
  | nil => simp [getOwn] at h
  | cons hd tl ih =>
    obtain ⟨k', v'⟩ := hd
    simp only [getOwn] at h
    split at h
    · rename_i hk
      simp only [Option.some.injEq] at h
      subst hk; subst h
      exact List.mem_cons_self _ _
    · exact List.mem_cons_of_mem _ (ih h)

theorem mem_replaceOwn {α : Type} {o : List (String × α)} {k : String} {v : α}
    {e : String × α} (h : e ∈ replaceOwn o k v) : e ∈ o ∨ e = (k, v) := by
  induction o with
  | nil => simp [replaceOwn] at h
  | cons hd tl ih =>
    obtain ⟨k', v'⟩ := hd
    simp only [replaceOwn] at h
    split at h
    · rename_i hk
      subst hk
      rcases List.mem_cons.mp h with h1 | h1
      · exact Or.inr h1
      · exact Or.inl (List.mem_cons_of_mem _ h1)
    · rcases List.mem_cons.mp h with h1 | h1
      · exact Or.inl (h1 ▸ List.mem_cons_self _ _)
      · rcases ih h1 with h2 | h2
        · exact Or.inl (List.mem_cons_of_mem _ h2)
        · exact Or.inr h2

theorem mem_insertOwn {α : Type} {o : List (String × α)} {k : String} {v : α}
    {e : String × α} : e ∈ insertOwn o k v ↔ e ∈ o ∨ e = (k, v) := by
  induction o with
  | nil => simp [insertOwn]
  | cons hd tl ih =>
    obtain ⟨k', v'⟩ := hd
    simp only [insertOwn]
    split
    · split
      · simp only [List.mem_cons]; tauto
      · simp only [List.mem_cons, ih]; tauto
    · simp only [List.mem_cons]; tauto
    · simp only [List.mem_cons, ih]; tauto

theorem mem_setOwn {α : Type} {o : List (String × α)} {k : String} {v : α}
    {e : String × α} (h : e ∈ setOwn o k v) : e ∈ o ∨ e = (k, v) := by
  unfold setOwn at h
  split at h
  · exact mem_replaceOwn h
  · exact mem_insertOwn.mp h

theorem mem_deleteOwn {α : Type} {o : List (String × α)} {k : String}
    {e : String × α} (h : e ∈ deleteOwn o k) : e ∈ o :=
  (List.mem_filter.mp h).1

theorem getOwn_replaceOwn_self {α : Type} {o : List (String × α)} {k : String} (v : α)
    (h : (getOwn o k).isSome = true) : getOwn (replaceOwn o k v) k = some v := by
  induction o with
  | nil => simp [getOwn] at h
  | cons hd tl ih =>
    obtain ⟨k', v'⟩ := hd
    by_cases hk : k' = k
    · simp [getOwn, replaceOwn, hk]
    · simp only [getOwn, hk, if_false] at h
      simp only [getOwn, replaceOwn, hk, if_false]
      exact ih h

theorem getOwn_replaceOwn_ne {α : Type} {o : List (String × α)} {k k1 : String} (v : α)
    (h : k1 ≠ k) : getOwn (replaceOwn o k v) k1 = getOwn o k1 := by
  induction o with
  | nil => simp [getOwn, replaceOwn]
  | cons hd tl ih =>
    obtain ⟨k', v'⟩ := hd
    by_cases hk : k' = k
    · subst hk
      have hk1 : ¬ k' = k1 := fun h1 => h h1.symm
      simp [getOwn, replaceOwn, hk1]
    · by_cases hk1 : k' = k1
      · subst hk1
        simp [getOwn, replaceOwn, hk]
      · simp only [getOwn, replaceOwn, hk, hk1, if_false]
        exact ih

theorem getOwn_insertOwn_self {α : Type} {o : List (String × α)} {k : String} (v : α)
    (h : getOwn o k = none) : getOwn (insertOwn o k v) k = some v := by
  induction o with
  | nil => simp [getOwn, insertOwn]
  | cons hd tl ih =>
    obtain ⟨k', v'⟩ := hd
    by_cases hk : k' = k
    · simp [getOwn, hk] at h
    · simp only [getOwn, hk, if_false] at h
      simp only [insertOwn]
      split
      · split
        · simp [getOwn]
        · simp only [getOwn, hk, if_false]; exact ih h
      · simp [getOwn]
      · simp only [getOwn, hk, if_false]; exact ih h

theorem getOwn_insertOwn_ne {α : Type} {o : List (String × α)} {k k1 : String} (v : α)
    (h : k1 ≠ k) : getOwn (insertOwn o k v) k1 = getOwn o k1 := by
  have hk1 : ¬ k = k1 := fun h1 => h h1.symm
  induction o with
  | nil => simp [getOwn, insertOwn, hk1]
  | cons hd tl ih =>
    obtain ⟨k', v'⟩ := hd
    simp only [insertOwn]
    split
    · split
      · simp [getOwn, hk1]
      · simp only [getOwn]; rw [ih]
    · simp [getOwn, hk1]
    · simp only [getOwn]; rw [ih]

theorem getOwn_setOwn_self {α : Type} (o : List (String × α)) (k : String) (v : α) :
    getOwn (setOwn o k v) k = some v := by
  unfold setOwn
  split
  · rename_i h; exact getOwn_replaceOwn_self v h
  · rename_i h
    exact getOwn_insertOwn_self v (by simpa using h)

theorem getOwn_setOwn_ne {α : Type} (o : List (String × α)) {k k1 : String} (v : α)
    (h : k1 ≠ k) : getOwn (setOwn o k v) k1 = getOwn o k1 := by
  unfold setOwn
  split
  · exact getOwn_replaceOwn_ne v h
  · exact getOwn_insertOwn_ne v h

theorem setOwn_ne_nil {α : Type} (o : List (String × α)) (k : String) (v : α) :
    setOwn o k v ≠ [] := by
  intro h
  have := getOwn_setOwn_self o k v
  rw [h] at this
  simp [getOwn] at this

theorem length_replaceOwn {α : Type} (o : List (String × α)) (k : String) (v : α) :
    (replaceOwn o k v).length = o.length := by
  induction o with
  | nil => rfl
  | cons hd tl ih =>
    obtain ⟨k', v'⟩ := hd
    simp only [replaceOwn]
    split
    · rfl
    · simp [ih]

theorem ownKeys_replaceOwn {α : Type} (o : List (String × α)) (k : String) (v : α) :
    ownKeys (replaceOwn o k v) = ownKeys o := by
  induction o with
  | nil => rfl
  | cons hd tl ih =>
    obtain ⟨k', v'⟩ := hd
    simp only [replaceOwn]
    split
    · rfl
    · simp only [ownKeys, List.map_cons] at ih ⊢
      rw [ih]

theorem mem_clearVotes {players : List (String × Player)} {q : String × Player}
    (h : q ∈ clearVotes players) : q.2.vote = Vote.null ∧ q.2.hasVoted = false := by
  unfold clearVotes at h
  obtain ⟨e, _, rfl⟩ := List.mem_map.mp h
  exact ⟨rfl, rfl⟩

theorem lookupSession_own {sessions : Registry} {sessionId : String} {room : Room}
    (h : lookupSession sessions sessionId = Slot.own room) : (sessionId, room) ∈ sessions := by
  unfold lookupSession at h
  split at h
  · rename_i r hr
    simp only [Slot.own.injEq] at h
    subst h
    exact mem_of_getOwn hr
  · split at h <;> simp at h

theorem removePlayer_room (socketId sessionId : String) (room : Room) :
    (removePlayer socketId sessionId room).1 = room ∨
      (removePlayer socketId sessionId room).1 =
        { room with players := deleteOwn room.players socketId } := by
  unfold removePlayer
  split
  · exact Or.inr rfl
  · exact Or.inl rfl

theorem mem_disconnectSweep {socketId : String} {sessions : Registry} {e : String × Room}
    (h : e ∈ (disconnectSweep socketId sessions).1) :
    (e ∈ sessions ∨
      ∃ room, (e.1, room) ∈ sessions ∧ e.2 = { room with players := deleteOwn room.players socketId }) ∧
    isAbandoned e.2 = false := by
  induction sessions with
  | nil => simp [disconnectSweep] at h
  | cons hd tl ih =>
    obtain ⟨k, room⟩ := hd
    have lift : ((e ∈ tl ∨ ∃ r, (e.1, r) ∈ tl ∧
          e.2 = { r with players := deleteOwn r.players socketId }) ∧ isAbandoned e.2 = false) →
        ((e ∈ (k, room) :: tl ∨ ∃ r, (e.1, r) ∈ (k, room) :: tl ∧
          e.2 = { r with players := deleteOwn r.players socketId }) ∧ isAbandoned e.2 = false) := by
      rintro ⟨h1 | ⟨r, hr, hr2⟩, h2⟩
      · exact ⟨Or.inl (List.mem_cons_of_mem _ h1), h2⟩
      · exact ⟨Or.inr ⟨r, List.mem_cons_of_mem _ hr, hr2⟩, h2⟩
    simp only [disconnectSweep] at h
    by_cases hab : isAbandoned (removePlayer socketId k room).1 = true
    · simp only [hab, if_true] at h
      exact lift (ih h)
    · simp only [hab, Bool.false_eq_true, if_false] at h
      rcases List.mem_cons.mp h with h1 | h1
      · subst h1
        refine ⟨?_, by simpa using hab⟩
        rcases removePlayer_room socketId k room with hr | hr
        · left
          simp only [hr]
          exact List.mem_cons_self _ _
        · right
          exact ⟨room, List.mem_cons_self _ _, hr⟩
      · exact lift (ih h1)

theorem replaceOwn_replaceOwn {α : Type} (o : List (String × α)) (k : String) (v w : α) :
    replaceOwn (replaceOwn o k v) k w = replaceOwn o k w := by
  induction o with
  | nil => rfl
  | cons hd tl ih =>
    obtain ⟨k', v'⟩ := hd
    by_cases hk : k' = k
    · simp [replaceOwn, hk]
    · simp only [replaceOwn, hk, if_false]
      rw [ih]

theorem replaceOwn_insertOwn {α : Type} {o : List (String × α)} {k : String} (v w : α)
    (h : getOwn o k = none) : replaceOwn (insertOwn o k v) k w = insertOwn o k w := by
  induction o with
  | nil => simp [replaceOwn, insertOwn]
  | cons hd tl ih =>
    obtain ⟨k', v'⟩ := hd
    by_cases hk : k' = k
    · simp [getOwn, hk] at h
    · simp only [getOwn, hk, if_false] at h
      simp only [insertOwn]
      split
      · split
        · simp [replaceOwn]
        · simp only [replaceOwn, hk, if_false]; rw [ih h]
      · simp [replaceOwn]
      · simp only [replaceOwn, hk, if_false]; rw [ih h]

theorem replaceOwn_setOwn {α : Type} (o : List (String × α)) (k : String) (v w : α) :
    replaceOwn (setOwn o k v) k w = setOwn o k w := by
  unfold setOwn
  split
  · exact replaceOwn_replaceOwn o k v w
  · rename_i h
    exact replaceOwn_insertOwn v w (by simpa using h)

/-! ## The handlers case by case -/

theorem lookupSession_eq_own {sessions : Registry} {sessionId : String} {room : Room}
    (h : getOwn sessions sessionId = some room) : lookupSession sessions sessionId = Slot.own room := by
  simp [lookupSession, h]

theorem lookupSession_eq_absent {sessions : Registry} {sessionId : String}
    (h : getOwn sessions sessionId = none) (hp : sessionId ∉ objectPrototypeNames) :
    lookupSession sessions sessionId = Slot.absent := by
  simp [lookupSession, h, hp]

theorem lookupSession_eq_inherited {sessions : Registry} {sessionId : String}
    (h : getOwn sessions sessionId = none) (hp : sessionId ∈ objectPrototypeNames) :
    lookupSession sessions sessionId = Slot.inherited := by
  simp [lookupSession, h, hp]

theorem getOwn_of_lookupSession {sessions : Registry} {sessionId : String} {room : Room}
    (h : lookupSession sessions sessionId = Slot.own room) : getOwn sessions sessionId = some room := by
  unfold lookupSession at h
  split at h
  · rename_i r hr
    simp only [Slot.own.injEq] at h
    rw [hr, h]
  · split at h <;> simp at h

/-- A join without a usable `sessionId` stores a new session under the
generated id and puts the joining connection in it. -/
theorem join_session_create (sessions : Registry) (socketId : String)
    (sessionId playerName : Option String) (draw1 draw2 : List (Fin 36))
    (h : truthy sessionId = false) :
    join_session sessions socketId sessionId playerName draw1 draw2 =
      some (setOwn sessions (generateUniqueId draw1)
              { newSession (generateUniqueId draw1) with
                players := [(socketId, newPlayer socketId playerName draw2)] },
            [Emit.toRoom (generateUniqueId draw1) (Msg.session_state_update
              { newSession (generateUniqueId draw1) with
                players := [(socketId, newPlayer socketId playerName draw2)] })]) := by
  simp only [join_session, h, Bool.false_eq_true, if_false]
  rw [lookupSession_eq_own (getOwn_setOwn_self _ _ _)]
  simp only [replaceOwn_setOwn]
  rfl

/-- A join with a non-empty `sessionId` is decided by `sessions[sessionId]`. -/
theorem join_session_explicit (sessions : Registry) (socketId sid : String)
    (playerName : Option String) (draw1 draw2 : List (Fin 36)) (h : sid ≠ "") :
    join_session sessions socketId (some sid) playerName draw1 draw2 =
      match lookupSession sessions sid with
      | Slot.absent =>
        some (sessions, [Emit.toSocket socketId (Msg.session_error "La sesión no existe.")])
      | Slot.inherited => none
      | Slot.own room =>
        some (replaceOwn sessions sid
                { room with players := setOwn room.players socketId (newPlayer socketId playerName draw2) },
              [Emit.toRoom sid (Msg.session_state_update
                { room with players := setOwn room.players socketId (newPlayer socketId playerName draw2) })]) := by
  have ht : truthy (some sid) = true := by simp [truthy, h]
  simp only [join_session, ht, if_true, Option.getD_some]

theorem truthy_eq_true {sessionId : Option String} (h : truthy sessionId = true) :
    ∃ sid, sessionId = some sid ∧ sid ≠ "" := by
  cases sessionId with
  | none => simp [truthy] at h
  | some sid => exact ⟨sid, rfl, by simpa [truthy] using h⟩

/-! ## How a handler changes the rooms -/
/-- Every room present after an event was present before it, unchanged or
rewritten as `RoomUpdate` says; a rewritten room is new only for a join. -/
theorem handle_mem {sessions sessions1 : Registry} {ev : Event} {out : List Emit}
    (h : handle sessions ev = some (sessions1, out)) {e : String × Room} (he : e ∈ sessions1) :
    e ∈ sessions ∨
      ∃ room, ((e.1, room) ∈ sessions ∨ (room = newSession e.1 ∧ ev.isJoin = true)) ∧
        RoomUpdate ev room e.2 := by
  cases ev with
  | join_session c sid name d1 d2 =>
    simp only [handle] at h
    by_cases ht : truthy sid = true
    · obtain ⟨s, rfl, hs⟩ := truthy_eq_true ht
      rw [join_session_explicit _ _ _ _ _ _ hs] at h
      split at h
      · simp only [Option.some.injEq, Prod.mk.injEq] at h
        exact Or.inl (h.1 ▸ he)
      · simp at h
      · rename_i room hl
        simp only [Option.some.injEq, Prod.mk.injEq] at h
        obtain ⟨h1, _⟩ := h
        subst h1
        rcases mem_replaceOwn he with h2 | h2
        · exact Or.inl h2
        · right
          subst h2
          exact ⟨room, Or.inl (lookupSession_own hl), newPlayer c name d2, rfl, rfl, rfl⟩
    · rw [join_session_create _ _ _ _ _ _ (by simpa using ht)] at h
      simp only [Option.some.injEq, Prod.mk.injEq] at h
      obtain ⟨h1, _⟩ := h
      subst h1
      rcases mem_setOwn he with h2 | h2
      · exact Or.inl h2
      · right
        subst h2
        exact ⟨newSession (generateUniqueId d1), Or.inr ⟨rfl, rfl⟩, newPlayer c name d2, rfl, rfl, rfl⟩
  | start_round c sid story =>
    simp only [handle, start_round] at h
    split at h
    · simp only [Option.some.injEq, Prod.mk.injEq] at h
      exact Or.inl (h.1 ▸ he)
    · simp at h
    · rename_i room hl
      simp only [Option.some.injEq, Prod.mk.injEq] at h
      obtain ⟨h1, _⟩ := h
      subst h1
      rcases mem_replaceOwn he with h2 | h2
      · exact Or.inl h2
      · right
        subst h2
        exact ⟨room, Or.inl (lookupSession_own hl), rfl⟩
  | submit_vote c sid vote =>
    simp only [handle, submit_vote] at h
    split at h
    · simp only [Option.some.injEq, Prod.mk.injEq] at h
      exact Or.inl (h.1 ▸ he)
    · simp only [Option.some.injEq, Prod.mk.injEq] at h
      exact Or.inl (h.1 ▸ he)
    · rename_i room hl
      split at h
      · simp only [Option.some.injEq, Prod.mk.injEq] at h
        exact Or.inl (h.1 ▸ he)
      · rename_i hguard
        split at h
        · simp only [Option.some.injEq, Prod.mk.injEq] at h
          exact Or.inl (h.1 ▸ he)
        · rename_i player hp
          simp only [Option.some.injEq, Prod.mk.injEq] at h
          obtain ⟨h1, _⟩ := h
          subst h1
          rcases mem_replaceOwn he with h2 | h2
          · exact Or.inl h2
          · right
            subst h2
            refine ⟨room, Or.inl (lookupSession_own hl), ?_, ?_, player, rfl⟩
            · cases hr : room.roundActive <;> simp [hr] at hguard ⊢
            · cases hr : room.cardsRevealed <;> simp [hr] at hguard ⊢
  | reveal_cards c sid =>
    simp only [handle, reveal_cards] at h
    split at h
    · simp only [Option.some.injEq, Prod.mk.injEq] at h
      exact Or.inl (h.1 ▸ he)
    · simp only [Option.some.injEq, Prod.mk.injEq] at h
      exact Or.inl (h.1 ▸ he)
    · rename_i room hl
      split at h
      · simp only [Option.some.injEq, Prod.mk.injEq] at h
        exact Or.inl (h.1 ▸ he)
      · rename_i hguard
        simp only [Option.some.injEq, Prod.mk.injEq] at h
        obtain ⟨h1, _⟩ := h
        subst h1
        rcases mem_replaceOwn he with h2 | h2
        · exact Or.inl h2
        · right
          subst h2
          refine ⟨room, Or.inl (lookupSession_own hl), ?_, rfl⟩
          cases hr : room.roundActive <;> simp [hr] at hguard ⊢
  | reset_round c sid =>
    simp only [handle, reset_round] at h
    split at h
    · simp only [Option.some.injEq, Prod.mk.injEq] at h
      exact Or.inl (h.1 ▸ he)
    · simp at h
    · rename_i room hl
      simp only [Option.some.injEq, Prod.mk.injEq] at h
      obtain ⟨h1, _⟩ := h
      subst h1
      rcases mem_replaceOwn he with h2 | h2
      · exact Or.inl h2
      · right
        subst h2
        exact ⟨room, Or.inl (lookupSession_own hl), rfl⟩
  | disconnect c =>
    simp only [handle, disconnect, Option.some.injEq] at h
    have h1 : sessions1 = (disconnectSweep c sessions).1 := by rw [h]
    subst h1
    rcases (mem_disconnectSweep he).1 with h2 | ⟨room, hr, hr2⟩
    · exact Or.inl h2
    · exact Or.inr ⟨room, Or.inl hr, hr2⟩

/-- A property of registries kept by every handled event that satisfies `Q`
holds after every run of such events. -/
theorem run_invariant (P : Registry → Prop) (Q : Event → Prop)
    (hstep : ∀ sessions ev sessions1 out, P sessions → Q ev →
      handle sessions ev = some (sessions1, out) → P sessions1) :
    ∀ (events : List Event) (sessions sessions1 : Registry), P sessions →
      (∀ ev ∈ events, Q ev) → run sessions events = some sessions1 → P sessions1 := by
  intro events
  induction events with
  | nil =>
    intro sessions sessions1 hP _ hrun
    simp only [run, Option.some.injEq] at hrun
    exact hrun ▸ hP
  | cons ev rest ih =>
    intro sessions sessions1 hP hQ hrun
    simp only [run] at hrun
    split at hrun
    · simp at hrun
    · rename_i s2 out hh
      exact ih s2 sessions1
        (hstep sessions ev s2 out hP (hQ ev (List.mem_cons_self _ _)) hh)
        (fun ev1 h1 => hQ ev1 (List.mem_cons_of_mem _ h1)) hrun

/-! ## C1: `hasVoted` and the presence of a vote -/

theorem roomUpdate_flagMatchesVote {ev : Event} {room room1 : Room}
    (hev : ev.submitsVoteValue = true) (hu : RoomUpdate ev room room1)
    (h : ∀ q ∈ room.players, q.2.flagMatchesVote) : ∀ q ∈ room1.players, q.2.flagMatchesVote := by
  intro q hq
  cases ev with
  | join_session c sid name d1 d2 =>
    obtain ⟨player, hv, hf, rfl⟩ := hu
    rcases mem_setOwn hq with h1 | h1
    · exact h q h1
    · subst h1
      simp [Player.flagMatchesVote, hv, hf]
  | start_round c sid story =>
    simp only [RoomUpdate] at hu
    subst hu
    obtain ⟨hv, hf⟩ := mem_clearVotes hq
    simp [Player.flagMatchesVote, hv, hf]
  | submit_vote c sid vote =>
    obtain ⟨_, _, player, rfl⟩ := hu
    rcases mem_replaceOwn hq with h1 | h1
    · exact h q h1
    · subst h1
      simpa [Player.flagMatchesVote, Event.submitsVoteValue] using hev
  | reveal_cards c sid =>
    obtain ⟨_, rfl⟩ := hu
    exact h q hq
  | reset_round c sid =>
    simp only [RoomUpdate] at hu
    subst hu
    obtain ⟨hv, hf⟩ := mem_clearVotes hq
    simp [Player.flagMatchesVote, hv, hf]
  | disconnect c =>
    simp only [RoomUpdate] at hu
    subst hu
    exact h q (mem_deleteOwn hq)

theorem handle_votesConsistent (sessions : Registry) (ev : Event) (sessions1 : Registry)
    (out : List Emit) (hP : VotesConsistent sessions) (hev : ev.submitsVoteValue = true)
    (h : handle sessions ev = some (sessions1, out)) : VotesConsistent sessions1 := by
  intro e he
  rcases handle_mem h he with h1 | ⟨room, hroom, hu⟩
  · exact hP e h1
  · apply roomUpdate_flagMatchesVote hev hu
    rcases hroom with h2 | ⟨h2, _⟩
    · exact hP _ h2
    · subst h2
      intro q hq
      simp [newSession] at hq

/-- C1, as stated, fails: Alice joins (session `123` is created), a round is
started, and she submits `null`; the handler stores `vote = null` together
with `hasVoted = true`. -/
theorem C1_null_vote_counterexample :
    run [] (aliceStartsRound ++ [Event.submit_vote "a" "123" Vote.null]) =
      some [("123", aliceRoom "Votación abierta" Vote.null true true false)] ∧
    ¬ VotesConsistent [("123", aliceRoom "Votación abierta" Vote.null true true false)] := by
  refine ⟨by decide, ?_⟩
  intro h
  have := h _ (List.mem_cons_self _ _)
    ("a", { id := "a", name := "Alice", vote := Vote.null, hasVoted := true })
    (List.mem_cons_self _ _)
  simp [Player.flagMatchesVote] at this

/-- C1 (amended): for every sequence of events (join, start round, submit
vote, reveal, reset round, disconnect) in which no submitted vote is `null`,
in every registry the run reaches from the empty one, every player of every
room has `hasVoted` true exactly when `vote` is not `null`. -/
theorem C1_hasVoted_iff_vote_present (events : List Event) (sessions : Registry)
    (hvotes : ∀ ev ∈ events, ev.submitsVoteValue = true)
    (hrun : run [] events = some sessions) : VotesConsistent sessions :=
  run_invariant VotesConsistent (fun ev => ev.submitsVoteValue = true) handle_votesConsistent
    events [] sessions (by intro e he; simp at he) hvotes hrun

/-- The amended C1 at the run: Alice joins, a round is started, she votes 5,
the cards are revealed. -/
theorem C1_hasVoted_iff_vote_present_witness :
    run [] (aliceStartsRound ++
        [Event.submit_vote "a" "123" (Vote.number 5), Event.reveal_cards "a" "123"]) =
      some [("123", aliceRoom "Cartas reveladas" (Vote.number 5) true true true)] ∧
    VotesConsistent [("123", aliceRoom "Cartas reveladas" (Vote.number 5) true true true)] :=
  ⟨by rfl, C1_hasVoted_iff_vote_present
    (aliceStartsRound ++ [Event.submit_vote "a" "123" (Vote.number 5), Event.reveal_cards "a" "123"])
    _ (by decide) (by rfl)⟩

/-! ## C2: votes outside the Voting state -/

/-- C2: when the room `R` exists and is Idle (`roundActive = false`) or
Revealed (`cardsRevealed = true`), `submit_vote` by any connection `c` with any
vote leaves `sessions` unchanged and emits exactly one message, a `vote_error`
sent to `c` alone; in particular no `session_state_update` is broadcast. -/
theorem C2_vote_rejected_outside_voting (sessions : Registry) (c R : String) (v : Vote)
    (room : Room) (hroom : getOwn sessions R = some room)
    (hstate : room.roundActive = false ∨ room.cardsRevealed = true) :
    submit_vote sessions c R v =
        some (sessions, [Emit.toSocket c (Msg.vote_error "No puedes votar en este momento.")]) ∧
      [Emit.toSocket c (Msg.vote_error "No puedes votar en este momento.")].filter
        Emit.isStateUpdate = [] := by
  refine ⟨?_, rfl⟩
  simp only [submit_vote, lookupSession_eq_own hroom]
  rcases hstate with h | h <;> simp [h]

/-- C2 at the scenario of the specification: Alice voted 5, the cards are
revealed, and a vote of 3 arrives. -/
theorem C2_vote_rejected_outside_voting_witness :
    submit_vote [("123", aliceRoom "Cartas reveladas" (Vote.number 5) true true true)]
        "a" "123" (Vote.number 3) =
        some ([("123", aliceRoom "Cartas reveladas" (Vote.number 5) true true true)],
          [Emit.toSocket "a" (Msg.vote_error "No puedes votar en este momento.")]) ∧
      [Emit.toSocket "a" (Msg.vote_error "No puedes votar en este momento.")].filter
        Emit.isStateUpdate = [] :=
  C2_vote_rejected_outside_voting _ "a" "123" (Vote.number 3)
    (aliceRoom "Cartas reveladas" (Vote.number 5) true true true) (by rfl) (Or.inr rfl)

/-! ## C3: events naming a room that does not exist -/

/-- C3, as stated, fails for `submit_vote`: on the empty registry a vote for
the unknown room `zzz` is answered with a `vote_error`. -/
theorem C3_unknown_room_vote_counterexample :
    getOwn ([] : Registry) "zzz" = none ∧
    submit_vote [] "b" "zzz" (Vote.number 3) =
      some ([], [Emit.toSocket "b" (Msg.vote_error "No puedes votar en este momento.")]) ∧
    Emit.isError (Emit.toSocket "b" (Msg.vote_error "No puedes votar en este momento.")) = true := by
  decide

/-- C3 (amended): let `sid` be a room identifier that is not in the registry.
`reveal_cards` is silently ignored (registry unchanged, nothing emitted);
`start_round` and `reset_round` are silently ignored when `sid` is not the
name of a member inherited from `Object.prototype`; `submit_vote` leaves the
registry unchanged and broadcasts nothing, but answers the sender with one
`vote_error`. -/
theorem C3_unknown_room (sessions : Registry) (c sid story : String) (v : Vote)
    (h : getOwn sessions sid = none) :
    (sid ∉ objectPrototypeNames →
      start_round sessions sid story = some (sessions, []) ∧
      reset_round sessions sid = some (sessions, [])) ∧
    reveal_cards sessions sid = some (sessions, []) ∧
    submit_vote sessions c sid v =
      some (sessions, [Emit.toSocket c (Msg.vote_error "No puedes votar en este momento.")]) := by
  refine ⟨fun hp => ?_, ?_, ?_⟩
  · simp [start_round, reset_round, lookupSession_eq_absent h hp]
  · by_cases hp : sid ∈ objectPrototypeNames
    · simp [reveal_cards, lookupSession_eq_inherited h hp]
    · simp [reveal_cards, lookupSession_eq_absent h hp]
  · by_cases hp : sid ∈ objectPrototypeNames
    · simp [submit_vote, lookupSession_eq_inherited h hp]
    · simp [submit_vote, lookupSession_eq_absent h hp]

/-- The amended C3 on a registry holding the session `123`, for the unknown
identifier `zzz`. -/
theorem C3_unknown_room_witness :
    getOwn [("123", aliceRoom "Votación abierta" Vote.null false true false)] "zzz" = none ∧
    "zzz" ∉ objectPrototypeNames ∧
    start_round [("123", aliceRoom "Votación abierta" Vote.null false true false)] "zzz" "S" =
      some ([("123", aliceRoom "Votación abierta" Vote.null false true false)], []) ∧
    reset_round [("123", aliceRoom "Votación abierta" Vote.null false true false)] "zzz" =
      some ([("123", aliceRoom "Votación abierta" Vote.null false true false)], []) ∧
    reveal_cards [("123", aliceRoom "Votación abierta" Vote.null false true false)] "zzz" =
      some ([("123", aliceRoom "Votación abierta" Vote.null false true false)], []) ∧
    submit_vote [("123", aliceRoom "Votación abierta" Vote.null false true false)] "b" "zzz"
        (Vote.number 3) =
      some ([("123", aliceRoom "Votación abierta" Vote.null false true false)],
        [Emit.toSocket "b" (Msg.vote_error "No puedes votar en este momento.")]) :=
  have h := C3_unknown_room [("123", aliceRoom "Votación abierta" Vote.null false true false)]
    "b" "zzz" "S" (Vote.number 3) (by decide)
  ⟨by decide, by decide, (h.1 (by decide)).1, (h.1 (by decide)).2, h.2.1, h.2.2⟩

/-! ## C4: starting a round -/

theorem ownKeys_clearVotes (players : List (String × Player)) :
    ownKeys (clearVotes players) = ownKeys players := by
  unfold ownKeys clearVotes
  rw [List.map_map]
  rfl

/-- C4: when the room `R` exists, whatever its state, players and votes,
`start_round` with story `s` succeeds and leaves under `R` a room with
`currentStory = s`, `roundActive = true`, `cardsRevealed = false`, the same
player keys, and `vote = null`, `hasVoted = false` for every player. -/
theorem C4_start_round_opens_voting (sessions : Registry) (R s : String) (room : Room)
    (hroom : getOwn sessions R = some room) :
    ∃ sessions1 out room1, start_round sessions R s = some (sessions1, out) ∧
      getOwn sessions1 R = some room1 ∧
      room1.currentStory = s ∧ room1.roundActive = true ∧ room1.cardsRevealed = false ∧
      ownKeys room1.players = ownKeys room.players ∧
      ∀ q ∈ room1.players, q.2.vote = Vote.null ∧ q.2.hasVoted = false := by
  have hstart : start_round sessions R s =
      some (replaceOwn sessions R
          { room with
            currentStory := s
            status := "Votación abierta"
            roundActive := true
            cardsRevealed := false
            players := clearVotes room.players },
        [Emit.toRoom R (Msg.session_state_update
          { room with
            currentStory := s
            status := "Votación abierta"
            roundActive := true
            cardsRevealed := false
            players := clearVotes room.players })]) := by
    simp only [start_round, lookupSession_eq_own hroom]
  exact ⟨_, _, _, hstart, getOwn_replaceOwn_self _ (by simp [hroom]), rfl, rfl, rfl,
    ownKeys_clearVotes _, fun q hq => mem_clearVotes hq⟩

/-- C4 on the session `123` in the Revealed state with Alice holding a vote. -/
theorem C4_start_round_opens_voting_witness :
    getOwn [("123", aliceRoom "Cartas reveladas" (Vote.number 5) true true true)] "123" =
      some (aliceRoom "Cartas reveladas" (Vote.number 5) true true true) ∧
    ∃ sessions1 out room1,
      start_round [("123", aliceRoom "Cartas reveladas" (Vote.number 5) true true true)]
        "123" "Story B" = some (sessions1, out) ∧
      getOwn sessions1 "123" = some room1 ∧
      room1.currentStory = "Story B" ∧ room1.roundActive = true ∧ room1.cardsRevealed = false ∧
      ownKeys room1.players =
        ownKeys (aliceRoom "Cartas reveladas" (Vote.number 5) true true true).players ∧
      ∀ q ∈ room1.players, q.2.vote = Vote.null ∧ q.2.hasVoted = false :=
  ⟨by rfl, C4_start_round_opens_voting _ "123" "Story B" _ (by rfl)⟩

/-! ## C5: revealing twice -/

/-- C5: in a room `R` that is Voting, the first `reveal_cards` sets
`cardsRevealed` (and the status label), leaves players, votes, story and
`roundActive` as they were, and broadcasts one `session_state_update`; a second
`reveal_cards` leaves the registry unchanged and emits nothing.  On every
registry, `reveal_cards` succeeds and a second one returns the registry the
first one produced. -/
theorem C5_reveal_twice (sessions : Registry) (R : String) :
    (∀ room, getOwn sessions R = some room → room.roundActive = true →
      room.cardsRevealed = false →
      reveal_cards sessions R =
        some (replaceOwn sessions R { room with cardsRevealed := true, status := "Cartas reveladas" },
          [Emit.toRoom R (Msg.session_state_update
            { room with cardsRevealed := true, status := "Cartas reveladas" })]) ∧
      reveal_cards
          (replaceOwn sessions R { room with cardsRevealed := true, status := "Cartas reveladas" }) R =
        some (replaceOwn sessions R { room with cardsRevealed := true, status := "Cartas reveladas" },
          [])) ∧
    ∃ sessions1 out, reveal_cards sessions R = some (sessions1, out) ∧
      reveal_cards sessions1 R = some (sessions1, []) := by
  have second : ∀ room, getOwn sessions R = some room → room.roundActive = true →
      room.cardsRevealed = false →
      reveal_cards
          (replaceOwn sessions R { room with cardsRevealed := true, status := "Cartas reveladas" }) R =
        some (replaceOwn sessions R { room with cardsRevealed := true, status := "Cartas reveladas" },
          []) := by
    intro room hroom _ _
    have hg := getOwn_replaceOwn_self
      ({ room with cardsRevealed := true, status := "Cartas reveladas" } : Room)
      (show (getOwn sessions R).isSome = true by simp [hroom])
    simp [reveal_cards, lookupSession_eq_own hg]
  have first : ∀ room, getOwn sessions R = some room → room.roundActive = true →
      room.cardsRevealed = false →
      reveal_cards sessions R =
        some (replaceOwn sessions R { room with cardsRevealed := true, status := "Cartas reveladas" },
          [Emit.toRoom R (Msg.session_state_update
            { room with cardsRevealed := true, status := "Cartas reveladas" })]) := by
    intro room hroom ha hr
    simp [reveal_cards, lookupSession_eq_own hroom, ha, hr]
  refine ⟨fun room h1 h2 h3 => ⟨first room h1 h2 h3, second room h1 h2 h3⟩, ?_⟩
  cases hg : getOwn sessions R with
  | none =>
    refine ⟨sessions, [], ?_, ?_⟩ <;>
    · by_cases hp : R ∈ objectPrototypeNames
      · simp [reveal_cards, lookupSession_eq_inherited hg hp]
      · simp [reveal_cards, lookupSession_eq_absent hg hp]
  | some room =>
    by_cases hv : room.roundActive = true ∧ room.cardsRevealed = false
    · exact ⟨_, _, first room hg hv.1 hv.2, second room hg hv.1 hv.2⟩
    · have hidle : reveal_cards sessions R = some (sessions, []) := by
        simp only [reveal_cards, lookupSession_eq_own hg]
        cases ha : room.roundActive <;> cases hr : room.cardsRevealed <;> simp_all
      exact ⟨sessions, [], hidle, hidle⟩

/-- C5 on the session `123` while Alice's vote of 5 is being collected. -/
theorem C5_reveal_twice_witness :
    reveal_cards [("123", aliceRoom "Votación abierta" (Vote.number 5) true true false)] "123" =
      some ([("123", aliceRoom "Cartas reveladas" (Vote.number 5) true true true)],
        [Emit.toRoom "123" (Msg.session_state_update
          (aliceRoom "Cartas reveladas" (Vote.number 5) true true true))]) ∧
    reveal_cards [("123", aliceRoom "Cartas reveladas" (Vote.number 5) true true true)] "123" =
      some ([("123", aliceRoom "Cartas reveladas" (Vote.number 5) true true true)], []) :=
  (C5_reveal_twice [("123", aliceRoom "Votación abierta" (Vote.number 5) true true false)] "123").1
    (aliceRoom "Votación abierta" (Vote.number 5) true true false) (by rfl) rfl rfl

/-! ## C6: the last player leaves -/

theorem getOwn_eq_none_of_not_mem {α : Type} {o : List (String × α)} {k : String}
    (h : k ∉ ownKeys o) : getOwn o k = none := by
  induction o with
  | nil => rfl
  | cons hd tl ih =>
    obtain ⟨k', v'⟩ := hd
    simp only [ownKeys, List.map_cons, List.mem_cons, not_or] at h
    have hk : ¬ k' = k := fun h1 => h.1 h1.symm
    simp only [getOwn, hk, if_false]
    exact ih h.2

theorem ownKeys_disconnectSweep_sublist (socketId : String) (sessions : Registry) :
    (ownKeys (disconnectSweep socketId sessions).1).Sublist (ownKeys sessions) := by
  induction sessions with
  | nil => simp [disconnectSweep, ownKeys]
  | cons hd tl ih =>
    obtain ⟨k, room⟩ := hd
    simp only [disconnectSweep]
    split
    · exact List.Sublist.cons _ ih
    · exact List.Sublist.cons₂ _ ih

theorem getOwn_isSome_of_mem_ownKeys {α : Type} {o : List (String × α)} {k : String}
    (h : k ∈ ownKeys o) : (getOwn o k).isSome = true := by
  induction o with
  | nil => simp [ownKeys] at h
  | cons hd tl ih =>
    obtain ⟨k', v'⟩ := hd
    by_cases hk : k' = k
    · simp [getOwn, hk]
    · simp only [ownKeys, List.map_cons, List.mem_cons] at h
      simp only [getOwn, hk, if_false]
      rcases h with h | h
      · exact absurd h.symm hk
      · exact ih h

theorem ownKeys_insertOwn_perm {α : Type} (o : List (String × α)) (k : String) (v : α) :
    (ownKeys (insertOwn o k v)).Perm (k :: ownKeys o) := by
  induction o with
  | nil => simp [insertOwn, ownKeys]
  | cons hd tl ih =>
    obtain ⟨k', v'⟩ := hd
    have step : (ownKeys ((k', v') :: insertOwn tl k v)).Perm (k :: ownKeys ((k', v') :: tl)) := by
      simp only [ownKeys, List.map_cons] at ih ⊢
      exact (List.Perm.cons k' ih).trans (List.Perm.swap k k' _)
    simp only [insertOwn]
    split
    · split
      · exact List.Perm.refl _
      · exact step
    · exact List.Perm.refl _
    · exact step

theorem nodup_ownKeys_setOwn {α : Type} {o : List (String × α)} (k : String) (v : α)
    (h : (ownKeys o).Nodup) : (ownKeys (setOwn o k v)).Nodup := by
  unfold setOwn
  split
  · rw [ownKeys_replaceOwn]; exact h
  · rename_i hk
    have hnot : k ∉ ownKeys o := fun hm => hk (getOwn_isSome_of_mem_ownKeys hm)
    exact (ownKeys_insertOwn_perm o k v).nodup_iff.mpr (List.nodup_cons.mpr ⟨hnot, h⟩)

theorem handle_wellFormed (sessions : Registry) (ev : Event) (sessions1 : Registry)
    (out : List Emit) (hP : WellFormed sessions) (_hev : True)
    (h : handle sessions ev = some (sessions1, out)) : WellFormed sessions1 := by
  unfold WellFormed at hP ⊢
  cases ev with
  | join_session c sid name d1 d2 =>
    simp only [handle] at h
    by_cases ht : truthy sid = true
    · obtain ⟨s, rfl, hs⟩ := truthy_eq_true ht
      rw [join_session_explicit _ _ _ _ _ _ hs] at h
      split at h
      · simp only [Option.some.injEq, Prod.mk.injEq] at h
        exact h.1 ▸ hP
      · simp at h
      · simp only [Option.some.injEq, Prod.mk.injEq] at h
        rw [← h.1, ownKeys_replaceOwn]
        exact hP
    · rw [join_session_create _ _ _ _ _ _ (by simpa using ht)] at h
      simp only [Option.some.injEq, Prod.mk.injEq] at h
      rw [← h.1]
      exact nodup_ownKeys_setOwn _ _ hP
  | start_round c sid story =>
    simp only [handle, start_round] at h
    split at h
    · simp only [Option.some.injEq, Prod.mk.injEq] at h
      exact h.1 ▸ hP
    · simp at h
    · simp only [Option.some.injEq, Prod.mk.injEq] at h
      rw [← h.1, ownKeys_replaceOwn]
      exact hP
  | submit_vote c sid vote =>
    simp only [handle, submit_vote] at h
    split at h
    · simp only [Option.some.injEq, Prod.mk.injEq] at h
      exact h.1 ▸ hP
    · simp only [Option.some.injEq, Prod.mk.injEq] at h
      exact h.1 ▸ hP
    · split at h
      · simp only [Option.some.injEq, Prod.mk.injEq] at h
        exact h.1 ▸ hP
      · split at h
        · simp only [Option.some.injEq, Prod.mk.injEq] at h
          exact h.1 ▸ hP
        · simp only [Option.some.injEq, Prod.mk.injEq] at h
          rw [← h.1, ownKeys_replaceOwn]
          exact hP
  | reveal_cards c sid =>
    simp only [handle, reveal_cards] at h
    split at h
    · simp only [Option.some.injEq, Prod.mk.injEq] at h
      exact h.1 ▸ hP
    · simp only [Option.some.injEq, Prod.mk.injEq] at h
      exact h.1 ▸ hP
    · split at h
      · simp only [Option.some.injEq, Prod.mk.injEq] at h
        exact h.1 ▸ hP
      · simp only [Option.some.injEq, Prod.mk.injEq] at h
        rw [← h.1, ownKeys_replaceOwn]
        exact hP
  | reset_round c sid =>
    simp only [handle, reset_round] at h
    split at h
    · simp only [Option.some.injEq, Prod.mk.injEq] at h
      exact h.1 ▸ hP
    · simp at h
    · simp only [Option.some.injEq, Prod.mk.injEq] at h
      rw [← h.1, ownKeys_replaceOwn]
      exact hP
  | disconnect c =>
    simp only [handle, disconnect, Option.some.injEq] at h
    have h1 : sessions1 = (disconnectSweep c sessions).1 := by rw [h]
    subst h1
    exact List.Nodup.sublist (ownKeys_disconnectSweep_sublist c sessions) hP

/-- Every registry reachable from the empty one is well formed. -/
theorem wellFormed_of_reachable {sessions : Registry} (h : Reachable sessions) :
    WellFormed sessions := by
  obtain ⟨events, hrun⟩ := h
  exact run_invariant WellFormed (fun _ => True) handle_wellFormed events [] sessions
    (by simp [WellFormed, ownKeys]) (fun _ _ => trivial) hrun

theorem wellFormed_disconnectSweep {socketId : String} {sessions : Registry}
    (h : WellFormed sessions) : WellFormed (disconnectSweep socketId sessions).1 :=
  List.Nodup.sublist (ownKeys_disconnectSweep_sublist socketId sessions) h

/-- What `sessions[k]` is after the `disconnect` loop. -/
theorem getOwn_disconnectSweep {socketId : String} {sessions : Registry}
    (hwf : WellFormed sessions) (k : String) :
    getOwn (disconnectSweep socketId sessions).1 k =
      match getOwn sessions k with
      | none => none
      | some room =>
        if isAbandoned (removePlayer socketId k room).1 then none
        else some (removePlayer socketId k room).1 := by
  induction sessions with
  | nil => simp [disconnectSweep, getOwn]
  | cons hd tl ih =>
    obtain ⟨k', room⟩ := hd
    have hwf1 : k' ∉ ownKeys tl ∧ WellFormed tl := by
      simpa [WellFormed, ownKeys] using hwf
    by_cases hk : k' = k
    · subst hk
      have hnone : getOwn (disconnectSweep socketId tl).1 k' = none :=
        getOwn_eq_none_of_not_mem
          (fun hm => hwf1.1 ((ownKeys_disconnectSweep_sublist socketId tl).subset hm))
      simp only [disconnectSweep, getOwn, if_true]
      split
      · exact hnone
      · simp [getOwn]
    · simp only [disconnectSweep, getOwn, hk, if_false]
      split
      · exact ih hwf1.2
      · simp only [getOwn, hk, if_false]
        exact ih hwf1.2

theorem players_of_ownKeys_singleton {players : List (String × Player)} {c : String}
    (h : ownKeys players = [c]) : ∃ p, players = [(c, p)] := by
  match players, h with
  | [(k, p)], h =>
    simp only [ownKeys, List.map_cons, List.map_nil, List.cons.injEq, and_true] at h
    exact ⟨p, by rw [h]⟩

/-- C6: let the players of the room `R` be exactly `c`.  After the disconnect
of `c`, `R` is no longer in the registry when its `currentStory` was empty, and
is still there, with no player and every other field unchanged, when its
`currentStory` was a non-empty string. -/
theorem C6_last_player_leaves (sessions : Registry) (R c : String) (room : Room)
    (hwf : WellFormed sessions) (hroom : getOwn sessions R = some room)
    (hplayers : ownKeys room.players = [c]) :
    ∃ sessions1 out, disconnect sessions c = some (sessions1, out) ∧
      (room.currentStory = "" → getOwn sessions1 R = none) ∧
      (room.currentStory ≠ "" → getOwn sessions1 R = some { room with players := [] }) := by
  obtain ⟨p, hp⟩ := players_of_ownKeys_singleton hplayers
  have hrem : (removePlayer c R room).1 = { room with players := [] } := by
    simp [removePlayer, hp, getOwn, deleteOwn]
  refine ⟨_, _, rfl, ?_, ?_⟩
  · intro hs
    rw [getOwn_disconnectSweep hwf, hroom]
    simp [hrem, isAbandoned, hs]
  · intro hs
    rw [getOwn_disconnectSweep hwf, hroom]
    simp [hrem, isAbandoned, hs]

/-- C6 on `aliceAlone`: after the disconnect of `a`, the room `7`, which has
no story, is gone, and the room `123`, whose story is `Story A`, remains
without players. -/
theorem C6_last_player_leaves_witness :
    WellFormed aliceAlone ∧
    getOwn (disconnectSweep "a" aliceAlone).1 "7" = none ∧
    getOwn (disconnectSweep "a" aliceAlone).1 "123" =
      some { aliceRoom "Votación abierta" Vote.null false true false with players := [] } := by
  have hwf : WellFormed aliceAlone := by unfold WellFormed; decide
  obtain ⟨s1, out1, h1, h7, _⟩ := C6_last_player_leaves aliceAlone "7" "a"
    { newSession "7" with players := [("a", newPlayer "a" (some "Alice") [])] }
    hwf (by rfl) (by rfl)
  obtain ⟨s2, out2, h2, _, h123⟩ := C6_last_player_leaves aliceAlone "123" "a"
    (aliceRoom "Votación abierta" Vote.null false true false) hwf (by rfl) (by rfl)
  simp only [disconnect, Option.some.injEq] at h1 h2
  refine ⟨hwf, ?_, ?_⟩
  · rw [h1]; exact h7 rfl
  · rw [h2]; exact h123 (by decide)

/-! ## C7: joining without an id, joining an unknown id -/

/-- C7, as stated, fails for the explicit identifier `""`: it is not in the
empty registry, yet the join creates the room `123` and broadcasts it instead
of answering with a `session_error`. -/
theorem C7_empty_id_counterexample :
    getOwn ([] : Registry) "" = none ∧
    join_session [] "a" (some "") (some "Alice") [1, 2, 3] [] =
      some ([("123", { newSession "123" with
                       players := [("a", { id := "a", name := "Alice", vote := Vote.null,
                                           hasVoted := false })] })],
        [Emit.toRoom "123" (Msg.session_state_update
          { newSession "123" with
            players := [("a", { id := "a", name := "Alice", vote := Vote.null,
                                hasVoted := false })] })]) := by
  decide

/-- C7 (amended): a join whose `sessionId` is absent or the empty string
always stores, under the generated id, a new room in the Idle state (empty
`currentStory`, `roundActive = false`, `cardsRevealed = false`) whose only
player is the joining connection with `vote = null`, `hasVoted = false`, and
broadcasts that room; a join with a non-empty `sessionId` that is neither in
the registry nor the name of a member inherited from `Object.prototype` leaves
the registry unchanged and emits exactly one message, a `session_error` sent
to the joining connection alone. -/
theorem C7_join_creates_or_rejects (sessions : Registry) (c : String) (playerName : Option String)
    (draw1 draw2 : List (Fin 36)) :
    (∀ sessionId, truthy sessionId = false →
      ∃ room1,
        join_session sessions c sessionId playerName draw1 draw2 =
          some (setOwn sessions (generateUniqueId draw1) room1,
            [Emit.toRoom (generateUniqueId draw1) (Msg.session_state_update room1)]) ∧
        getOwn (setOwn sessions (generateUniqueId draw1) room1) (generateUniqueId draw1) =
          some room1 ∧
        room1.id = generateUniqueId draw1 ∧ room1.currentStory = "" ∧
        room1.roundActive = false ∧ room1.cardsRevealed = false ∧
        room1.players =
          [(c, { newPlayer c playerName draw2 with vote := Vote.null, hasVoted := false })]) ∧
    (∀ sid, sid ≠ "" → getOwn sessions sid = none → sid ∉ objectPrototypeNames →
      join_session sessions c (some sid) playerName draw1 draw2 =
        some (sessions, [Emit.toSocket c (Msg.session_error "La sesión no existe.")])) := by
  constructor
  · intro sessionId h
    exact ⟨_, join_session_create sessions c sessionId playerName draw1 draw2 h,
      getOwn_setOwn_self _ _ _, rfl, rfl, rfl, rfl, rfl⟩
  · intro sid hne hnone hp
    rw [join_session_explicit _ _ _ _ _ _ hne, lookupSession_eq_absent hnone hp]

/-- The amended C7 on a registry holding the session `123`: Bob joins
without an id and the generator yields `k9`; Bob joins the unknown id `zzz`. -/
theorem C7_join_creates_or_rejects_witness :
    (∃ room1,
      join_session [("123", aliceRoom "Votación abierta" Vote.null false true false)]
          "b" none (some "Bob") [20, 9] [] =
        some (setOwn [("123", aliceRoom "Votación abierta" Vote.null false true false)]
            (generateUniqueId [20, 9]) room1,
          [Emit.toRoom (generateUniqueId [20, 9]) (Msg.session_state_update room1)]) ∧
      getOwn (setOwn [("123", aliceRoom "Votación abierta" Vote.null false true false)]
          (generateUniqueId [20, 9]) room1) (generateUniqueId [20, 9]) = some room1 ∧
      room1.id = generateUniqueId [20, 9] ∧ room1.currentStory = "" ∧
      room1.roundActive = false ∧ room1.cardsRevealed = false ∧
      room1.players =
        [("b", { newPlayer "b" (some "Bob") [] with vote := Vote.null, hasVoted := false })]) ∧
    join_session [("123", aliceRoom "Votación abierta" Vote.null false true false)]
        "b" (some "zzz") (some "Bob") [20, 9] [] =
      some ([("123", aliceRoom "Votación abierta" Vote.null false true false)],
        [Emit.toSocket "b" (Msg.session_error "La sesión no existe.")]) :=
  ⟨(C7_join_creates_or_rejects [("123", aliceRoom "Votación abierta" Vote.null false true false)]
      "b" (some "Bob") [20, 9] []).1 none rfl,
   (C7_join_creates_or_rejects [("123", aliceRoom "Votación abierta" Vote.null false true false)]
      "b" (some "Bob") [20, 9] []).2 "zzz" (by decide) (by rfl) (by decide)⟩

/-! ## C8: a handler either broadcasts the room it changed or changes nothing -/

/-- Whenever a handler other than `disconnect` returns, either it emitted
exactly one `session_state_update`, addressed to the room it targets and
carrying that room as the resulting registry holds it, or it emitted none and
the registry is the one it started from. -/
theorem handle_broadcasts_or_unchanged {sessions sessions1 : Registry} {ev : Event}
    {out : List Emit} (h : handle sessions ev = some (sessions1, out))
    (hev : ∀ c, ev ≠ Event.disconnect c) :
    (∃ sid room, out.filter Emit.isStateUpdate = [Emit.toRoom sid (Msg.session_state_update room)] ∧
        getOwn sessions1 sid = some room) ∨
      (out.filter Emit.isStateUpdate = [] ∧ sessions1 = sessions) := by
  cases ev with
  | join_session c sid name d1 d2 =>
    simp only [handle] at h
    by_cases ht : truthy sid = true
    · obtain ⟨s, rfl, hs⟩ := truthy_eq_true ht
      rw [join_session_explicit _ _ _ _ _ _ hs] at h
      split at h
      · simp only [Option.some.injEq, Prod.mk.injEq] at h
        obtain ⟨h1, h2⟩ := h
        subst h1; subst h2
        exact Or.inr ⟨rfl, rfl⟩
      · simp at h
      · rename_i room hl
        simp only [Option.some.injEq, Prod.mk.injEq] at h
        obtain ⟨h1, h2⟩ := h
        subst h1; subst h2
        exact Or.inl ⟨_, _, rfl,
          getOwn_replaceOwn_self _ (by simp [getOwn_of_lookupSession hl])⟩
    · rw [join_session_create _ _ _ _ _ _ (by simpa using ht)] at h
      simp only [Option.some.injEq, Prod.mk.injEq] at h
      obtain ⟨h1, h2⟩ := h
      subst h1; subst h2
      exact Or.inl ⟨_, _, rfl, getOwn_setOwn_self _ _ _⟩
  | start_round c sid story =>
    simp only [handle, start_round] at h
    split at h
    · simp only [Option.some.injEq, Prod.mk.injEq] at h
      obtain ⟨h1, h2⟩ := h
      subst h1; subst h2
      exact Or.inr ⟨rfl, rfl⟩
    · simp at h
    · rename_i room hl
      simp only [Option.some.injEq, Prod.mk.injEq] at h
      obtain ⟨h1, h2⟩ := h
      subst h1; subst h2
      exact Or.inl ⟨_, _, rfl,
        getOwn_replaceOwn_self _ (by simp [getOwn_of_lookupSession hl])⟩
  | submit_vote c sid vote =>
    simp only [handle, submit_vote] at h
    split at h
    · simp only [Option.some.injEq, Prod.mk.injEq] at h
      obtain ⟨h1, h2⟩ := h
      subst h1; subst h2
      exact Or.inr ⟨rfl, rfl⟩
    · simp only [Option.some.injEq, Prod.mk.injEq] at h
      obtain ⟨h1, h2⟩ := h
      subst h1; subst h2
      exact Or.inr ⟨rfl, rfl⟩
    · rename_i room hl
      split at h
      · simp only [Option.some.injEq, Prod.mk.injEq] at h
        obtain ⟨h1, h2⟩ := h
        subst h1; subst h2
        exact Or.inr ⟨rfl, rfl⟩
      · split at h
        · simp only [Option.some.injEq, Prod.mk.injEq] at h
          obtain ⟨h1, h2⟩ := h
          subst h1; subst h2
          exact Or.inr ⟨rfl, rfl⟩
        · simp only [Option.some.injEq, Prod.mk.injEq] at h
          obtain ⟨h1, h2⟩ := h
          subst h1; subst h2
          exact Or.inl ⟨_, _, rfl,
            getOwn_replaceOwn_self _ (by simp [getOwn_of_lookupSession hl])⟩
  | reveal_cards c sid =>
    simp only [handle, reveal_cards] at h
    split at h
    · simp only [Option.some.injEq, Prod.mk.injEq] at h
      obtain ⟨h1, h2⟩ := h
      subst h1; subst h2
      exact Or.inr ⟨rfl, rfl⟩
    · simp only [Option.some.injEq, Prod.mk.injEq] at h
      obtain ⟨h1, h2⟩ := h
      subst h1; subst h2
      exact Or.inr ⟨rfl, rfl⟩
    · rename_i room hl
      split at h
      · simp only [Option.some.injEq, Prod.mk.injEq] at h
        obtain ⟨h1, h2⟩ := h
        subst h1; subst h2
        exact Or.inr ⟨rfl, rfl⟩
      · simp only [Option.some.injEq, Prod.mk.injEq] at h
        obtain ⟨h1, h2⟩ := h
        subst h1; subst h2
        exact Or.inl ⟨_, _, rfl,
          getOwn_replaceOwn_self _ (by simp [getOwn_of_lookupSession hl])⟩
  | reset_round c sid =>
    simp only [handle, reset_round] at h
    split at h
    · simp only [Option.some.injEq, Prod.mk.injEq] at h
      obtain ⟨h1, h2⟩ := h
      subst h1; subst h2
      exact Or.inr ⟨rfl, rfl⟩
    · simp at h
    · rename_i room hl
      simp only [Option.some.injEq, Prod.mk.injEq] at h
      obtain ⟨h1, h2⟩ := h
      subst h1; subst h2
      exact Or.inl ⟨_, _, rfl,
        getOwn_replaceOwn_self _ (by simp [getOwn_of_lookupSession hl])⟩
  | disconnect c => exact absurd rfl (hev c)

/-- C8 at the failing input: on the empty registry, `start_round` for the
identifier `toString` finds the inherited `Object.prototype.toString`, passes
the existence guard, and raises before reaching the broadcast; so do
`reset_round` and `join_session`.  They return neither a broadcast with the
resulting room nor the prior registry. -/
theorem C8_inherited_name_raises :
    getOwn ([] : Registry) "toString" = none ∧
    handle [] (Event.start_round "a" "toString" "Story A") = none ∧
    handle [] (Event.reset_round "a" "toString") = none ∧
    handle [] (Event.join_session "a" (some "toString") (some "Alice") [] []) = none := by
  decide

/-! ## C9: `cardsRevealed` implies `roundActive` -/

theorem roomUpdate_flags {ev : Event} {room room1 : Room} (hu : RoomUpdate ev room room1)
    (h : room.cardsRevealed = true → room.roundActive = true) :
    room1.cardsRevealed = true → room1.roundActive = true := by
  cases ev with
  | join_session c sid name d1 d2 =>
    obtain ⟨player, _, _, rfl⟩ := hu
    exact h
  | start_round c sid story =>
    simp only [RoomUpdate] at hu
    subst hu
    intro _; rfl
  | submit_vote c sid vote =>
    obtain ⟨_, _, player, rfl⟩ := hu
    exact h
  | reveal_cards c sid =>
    obtain ⟨ha, rfl⟩ := hu
    intro _; exact ha
  | reset_round c sid =>
    simp only [RoomUpdate] at hu
    subst hu
    intro hr; simp at hr
  | disconnect c =>
    simp only [RoomUpdate] at hu
    subst hu
    exact h

theorem handle_flagsConsistent (sessions : Registry) (ev : Event) (sessions1 : Registry)
    (out : List Emit) (hP : FlagsConsistent sessions) (_hev : True)
    (h : handle sessions ev = some (sessions1, out)) : FlagsConsistent sessions1 := by
  intro e he
  rcases handle_mem h he with h1 | ⟨room, hroom, hu⟩
  · exact hP e h1
  · apply roomUpdate_flags hu
    rcases hroom with h2 | ⟨h2, _⟩
    · exact hP _ h2
    · subst h2
      intro hr
      simp [newSession] at hr

/-- C9: in every registry reachable from the empty one, every room has
`cardsRevealed` only together with `roundActive`: its flags are those of Idle
(`false`, `false`), Voting (`true`, `false`) or Revealed (`true`, `true`), never
`roundActive = false` with `cardsRevealed = true`. -/
theorem C9_revealed_implies_active (sessions : Registry) (h : Reachable sessions) :
    ∀ e ∈ sessions,
      (e.2.cardsRevealed = true → e.2.roundActive = true) ∧
      ((e.2.roundActive, e.2.cardsRevealed) = (false, false) ∨
        (e.2.roundActive, e.2.cardsRevealed) = (true, false) ∨
        (e.2.roundActive, e.2.cardsRevealed) = (true, true)) ∧
      (e.2.roundActive, e.2.cardsRevealed) ≠ (false, true) := by
  obtain ⟨events, hrun⟩ := h
  have hinv : FlagsConsistent sessions :=
    run_invariant FlagsConsistent (fun _ => True) handle_flagsConsistent events [] sessions
      (by intro e he; simp at he) (fun _ _ => trivial) hrun
  intro e he
  have := hinv e he
  cases ha : e.2.roundActive <;> cases hr : e.2.cardsRevealed <;> simp_all

/-- C9 at the registry reached when Alice joins, a round is started, she votes
5 and the cards are revealed: the room `123` is Revealed and active. -/
theorem C9_revealed_implies_active_witness :
    Reachable [("123", aliceRoom "Cartas reveladas" (Vote.number 5) true true true)] ∧
    (aliceRoom "Cartas reveladas" (Vote.number 5) true true true).roundActive = true ∧
    ((aliceRoom "Cartas reveladas" (Vote.number 5) true true true).roundActive,
      (aliceRoom "Cartas reveladas" (Vote.number 5) true true true).cardsRevealed) ≠ (false, true) :=
  have hreach : Reachable [("123", aliceRoom "Cartas reveladas" (Vote.number 5) true true true)] :=
    ⟨aliceStartsRound ++
      [Event.submit_vote "a" "123" (Vote.number 5), Event.reveal_cards "a" "123"], by rfl⟩
  have h := C9_revealed_implies_active _ hreach
    ("123", aliceRoom "Cartas reveladas" (Vote.number 5) true true true) (List.mem_cons_self _ _)
  ⟨hreach, h.1 rfl, h.2.2⟩

/-! ## C10: rooms without players and without a story -/

theorem handle_noAbandonedRoom (sessions : Registry) (ev : Event) (sessions1 : Registry)
    (out : List Emit) (hP : NoAbandonedRoom sessions) (hev : ev.keepsStory = true)
    (h : handle sessions ev = some (sessions1, out)) : NoAbandonedRoom sessions1 := by
  intro e he
  by_cases hd : ∃ c, ev = Event.disconnect c
  · obtain ⟨c, rfl⟩ := hd
    simp only [handle, disconnect, Option.some.injEq] at h
    have h1 : sessions1 = (disconnectSweep c sessions).1 := by rw [h]
    subst h1
    exact (mem_disconnectSweep he).2
  · rcases handle_mem h he with h1 | ⟨room, hroom, hu⟩
    · exact hP e h1
    · cases ev with
      | join_session c sid name d1 d2 =>
        obtain ⟨player, _, _, h2⟩ := hu
        have hne := setOwn_ne_nil room.players c player
        have hlen : (setOwn room.players c player).length ≠ 0 := by
          intro h0
          exact hne (List.length_eq_zero.mp h0)
        simp [isAbandoned, h2, hlen]
      | start_round c sid story =>
        simp only [RoomUpdate] at hu
        have hs : story ≠ "" := by simpa [Event.keepsStory] using hev
        simp [isAbandoned, hu, hs]
      | submit_vote c sid vote =>
        obtain ⟨_, _, player, h2⟩ := hu
        rcases hroom with h3 | ⟨_, h3⟩
        · have := hP _ h3
          simp only [isAbandoned, h2, length_replaceOwn] at this ⊢
          exact this
        · simp [Event.isJoin] at h3
      | reveal_cards c sid =>
        obtain ⟨_, h2⟩ := hu
        rcases hroom with h3 | ⟨_, h3⟩
        · have := hP _ h3
          simp only [isAbandoned, h2] at this ⊢
          exact this
        · simp [Event.isJoin] at h3
      | reset_round c sid => simp [Event.keepsStory] at hev
      | disconnect c => exact absurd ⟨c, rfl⟩ hd

/-- C10, as stated, fails: Alice joins (room `123`), a round is started on
`Story A`, Alice disconnects (the room is kept because of its story), and
another connection resets the round; the room `123` stays in the registry
with no player and an empty `currentStory`. -/
theorem C10_reset_leaves_abandoned_room_counterexample :
    run [] (aliceStartsRound ++ [Event.disconnect "a", Event.reset_round "b" "123"]) =
      some [("123",
        { id := "123", name := "Sesión 123", currentStory := "", status := "Esperando votos...",
          players := [], roundActive := false, cardsRevealed := false })] ∧
    ¬ NoAbandonedRoom [("123",
        { id := "123", name := "Sesión 123", currentStory := "", status := "Esperando votos...",
          players := [], roundActive := false, cardsRevealed := false })] := by
  refine ⟨by decide, ?_⟩
  intro h
  have := h _ (List.mem_cons_self _ _)
  simp [isAbandoned] at this

theorem length_clearVotes (players : List (String × Player)) :
    (clearVotes players).length = players.length := by
  simp [clearVotes]

/-- A round emptied of its story (by `reset_round`, or by `start_round` with an
empty story) in a session that has a player leaves no abandoned room. -/
theorem emptied_story_keeps_invariant {sessions sessions1 : Registry} {sid : String}
    {room1 : Room} (hP : NoAbandonedRoom sessions)
    (hs : sessions1 = replaceOwn sessions sid room1) (hlen : room1.players.length ≠ 0) :
    NoAbandonedRoom sessions1 := by
  intro e he
  rw [hs] at he
  rcases mem_replaceOwn he with h1 | h1
  · exact hP e h1
  · subst h1
    simp [isAbandoned, hlen]

/-- An event that does not empty the story of a session without players keeps
the registry free of abandoned rooms. -/
theorem handle_spares_noAbandonedRoom (sessions : Registry) (ev : Event) (sessions1 : Registry)
    (out : List Emit) (hP : NoAbandonedRoom sessions)
    (hev : emptiesDesertedRoom sessions ev = false)
    (h : handle sessions ev = some (sessions1, out)) : NoAbandonedRoom sessions1 := by
  by_cases hk : ev.keepsStory = true
  · exact handle_noAbandonedRoom sessions ev sessions1 out hP hk h
  · cases ev with
    | join_session c sid name d1 d2 => simp [Event.keepsStory] at hk
    | submit_vote c sid vote => simp [Event.keepsStory] at hk
    | reveal_cards c sid => simp [Event.keepsStory] at hk
    | disconnect c => simp [Event.keepsStory] at hk
    | reset_round c sid =>
      simp only [handle, reset_round] at h
      split at h
      · simp only [Option.some.injEq, Prod.mk.injEq] at h
        exact h.1 ▸ hP
      · simp at h
      · rename_i room hl
        simp only [Option.some.injEq, Prod.mk.injEq] at h
        have hg := getOwn_of_lookupSession hl
        have hlen : room.players.length ≠ 0 := by
          simpa [emptiesDesertedRoom, hg] using hev
        exact emptied_story_keeps_invariant hP h.1.symm
          (by simpa [length_clearVotes] using hlen)
    | start_round c sid story =>
      have hstory : story = "" := by simpa [Event.keepsStory] using hk
      simp only [handle, start_round] at h
      split at h
      · simp only [Option.some.injEq, Prod.mk.injEq] at h
        exact h.1 ▸ hP
      · simp at h
      · rename_i room hl
        simp only [Option.some.injEq, Prod.mk.injEq] at h
        have hg := getOwn_of_lookupSession hl
        have hlen : room.players.length ≠ 0 := by
          simpa [emptiesDesertedRoom, hg, hstory] using hev
        exact emptied_story_keeps_invariant hP h.1.symm
          (by simpa [length_clearVotes] using hlen)

/-- An event that empties the story of a session without players leaves that
session in the registry, abandoned. -/
theorem handle_deserted_abandons (sessions : Registry) (ev : Event) (sessions1 : Registry)
    (out : List Emit) (hev : emptiesDesertedRoom sessions ev = true)
    (h : handle sessions ev = some (sessions1, out)) : ¬ NoAbandonedRoom sessions1 := by
  intro hP
  cases ev with
  | join_session c sid name d1 d2 => simp [emptiesDesertedRoom] at hev
  | submit_vote c sid vote => simp [emptiesDesertedRoom] at hev
  | reveal_cards c sid => simp [emptiesDesertedRoom] at hev
  | disconnect c => simp [emptiesDesertedRoom] at hev
  | reset_round c sid =>
    cases hg : getOwn sessions sid with
    | none => simp [emptiesDesertedRoom, hg] at hev
    | some room =>
      have hlen : room.players.length = 0 := by simpa [emptiesDesertedRoom, hg] using hev
      simp only [handle, reset_round, lookupSession_eq_own hg, Option.some.injEq,
        Prod.mk.injEq] at h
      have hmem := mem_of_getOwn (getOwn_replaceOwn_self
        ({ room with
           currentStory := ""
           status := "Esperando votos..."
           roundActive := false
           cardsRevealed := false
           players := clearVotes room.players } : Room)
        (show (getOwn sessions sid).isSome = true by simp [hg]))
      rw [h.1] at hmem
      have := hP _ hmem
      simp [isAbandoned, length_clearVotes, hlen] at this
  | start_round c sid story =>
    cases hg : getOwn sessions sid with
    | none => simp [emptiesDesertedRoom, hg] at hev
    | some room =>
      have hboth : story = "" ∧ room.players.length = 0 := by
        simpa [emptiesDesertedRoom, hg] using hev
      simp only [handle, start_round, lookupSession_eq_own hg, Option.some.injEq,
        Prod.mk.injEq] at h
      have hmem := mem_of_getOwn (getOwn_replaceOwn_self
        ({ room with
           currentStory := story
           status := "Votación abierta"
           roundActive := true
           cardsRevealed := false
           players := clearVotes room.players } : Room)
        (show (getOwn sessions sid).isSome = true by simp [hg]))
      rw [h.1] at hmem
      have := hP _ hmem
      simp [isAbandoned, length_clearVotes, hboth.1, hboth.2] at this

theorem run_spares_noAbandonedRoom :
    ∀ (events : List Event) (sessions sessions1 : Registry), NoAbandonedRoom sessions →
      sparesDesertedRooms sessions events = true → run sessions events = some sessions1 →
      NoAbandonedRoom sessions1 := by
  intro events
  induction events with
  | nil =>
    intro sessions sessions1 hP _ hrun
    simp only [run, Option.some.injEq] at hrun
    exact hrun ▸ hP
  | cons ev rest ih =>
    intro sessions sessions1 hP hsp hrun
    simp only [sparesDesertedRooms, Bool.and_eq_true, Bool.not_eq_true'] at hsp
    simp only [run] at hrun
    cases hh : handle sessions ev with
    | none => simp [hh] at hrun
    | some res =>
      obtain ⟨s2, out⟩ := res
      simp only [hh] at hrun hsp
      exact ih s2 sessions1 (handle_spares_noAbandonedRoom sessions ev s2 out hP hsp.1 hh)
        hsp.2 hrun

/-- C10 (amended): the destruction predicate is applied by `disconnect`
only, so a room is left without players and without story exactly when a
`reset_round`, or a `start_round` with an empty story, is applied to a room
that exists and has no player.  In every registry reached from the empty one
by a sequence of events none of which does that, no room has both an empty
player set and an empty `currentStory`; from a registry without such a room,
an event whose handler returns produces one exactly when it empties the story
of a room without players; and on any registry whatsoever, `disconnect`
returns a registry without such a room. -/
theorem C10_no_abandoned_room :
    (∀ (events : List Event) (sessions : Registry),
      sparesDesertedRooms [] events = true → run [] events = some sessions →
        NoAbandonedRoom sessions) ∧
    (∀ (sessions sessions1 : Registry) (ev : Event) (out : List Emit),
      NoAbandonedRoom sessions → handle sessions ev = some (sessions1, out) →
        (NoAbandonedRoom sessions1 ↔ emptiesDesertedRoom sessions ev = false)) ∧
    (∀ (sessions : Registry) (c : String), ∃ sessions1 out,
      disconnect sessions c = some (sessions1, out) ∧ NoAbandonedRoom sessions1) := by
  refine ⟨?_, ?_, ?_⟩
  · intro events sessions hsp hrun
    exact run_spares_noAbandonedRoom events [] sessions (by intro e he; simp at he) hsp hrun
  · intro sessions sessions1 ev out hP h
    constructor
    · intro hP1
      cases hev : emptiesDesertedRoom sessions ev with
      | false => rfl
      | true => exact absurd hP1 (handle_deserted_abandons sessions ev sessions1 out hev h)
    · intro hev
      exact handle_spares_noAbandonedRoom sessions ev sessions1 out hP hev h
  · intro sessions c
    exact ⟨_, _, rfl, fun e he => (mem_disconnectSweep he).2⟩

/-- The amended C10 at the scenario of the specification, which contains a
`reset_round`: Alice joins, a round is started on `Story A`, she votes 5, the
cards are revealed and the round is reset while she is still in the room; and
at the disconnect that follows the reset of the room she had left. -/
theorem C10_no_abandoned_room_witness :
    sparesDesertedRooms []
        (aliceStartsRound ++
          [Event.submit_vote "a" "123" (Vote.number 5), Event.reveal_cards "a" "123",
           Event.reset_round "a" "123"]) = true ∧
    run []
        (aliceStartsRound ++
          [Event.submit_vote "a" "123" (Vote.number 5), Event.reveal_cards "a" "123",
           Event.reset_round "a" "123"]) =
      some [("123",
        { emptiedRoom with
          players := [("a", { id := "a", name := "Alice", vote := Vote.null,
                              hasVoted := false })] })] ∧
    NoAbandonedRoom [("123",
        { emptiedRoom with
          players := [("a", { id := "a", name := "Alice", vote := Vote.null,
                              hasVoted := false })] })] ∧
    ∃ sessions1 out,
      disconnect [("123", emptiedRoom)] "b" = some (sessions1, out) ∧
        NoAbandonedRoom sessions1 :=
  ⟨by rfl, by rfl,
   C10_no_abandoned_room.1
    (aliceStartsRound ++
      [Event.submit_vote "a" "123" (Vote.number 5), Event.reveal_cards "a" "123",
       Event.reset_round "a" "123"]) _ (by rfl) (by rfl),
   C10_no_abandoned_room.2.2 _ "b"⟩

/-! ## C11: which rooms a disconnect touches -/

theorem removePlayer_of_not_member {socketId : String} (sessionId : String) {room : Room}
    (h : getOwn room.players socketId = none) :
    removePlayer socketId sessionId room = (room, []) := by
  simp [removePlayer, h]

/-- C11, as stated, fails: after Alice joined, a round was started, Alice
left and the round was reset, the room `123` has no player at all; the
disconnect of `b`, who never was in it, deletes it. -/
theorem C11_sweep_removes_other_room_counterexample :
    run [] (aliceStartsRound ++ [Event.disconnect "a", Event.reset_round "b" "123"]) =
      some [("123", emptiedRoom)] ∧
    getOwn emptiedRoom.players "b" = none ∧
    disconnect [("123", emptiedRoom)] "b" = some ([], []) ∧
    getOwn ([] : Registry) "123" = none := by
  decide

/-- C11 (amended): the destruction predicate is applied to every room the
loop visits.  A room that had no player keyed by `c` before the disconnect of
`c` is still present and unchanged afterwards when it has a player or a
non-empty `currentStory`, and is removed when it has neither. -/
theorem C11_disconnect_frame (sessions : Registry) (c R : String) (room : Room)
    (hwf : WellFormed sessions) (hroom : getOwn sessions R = some room)
    (hc : getOwn room.players c = none) :
    ∃ sessions1 out, disconnect sessions c = some (sessions1, out) ∧
      (isAbandoned room = false → getOwn sessions1 R = some room) ∧
      (isAbandoned room = true → getOwn sessions1 R = none) := by
  refine ⟨_, _, rfl, ?_, ?_⟩
  · intro h
    rw [getOwn_disconnectSweep hwf, hroom]
    simp [removePlayer_of_not_member R hc, h]
  · intro h
    rw [getOwn_disconnectSweep hwf, hroom]
    simp [removePlayer_of_not_member R hc, h]

/-- The amended C11 on `aliceAlone` for the connection `b`, which is in
neither room: both rooms have a player and stay as they are. -/
theorem C11_disconnect_frame_witness :
    WellFormed aliceAlone ∧
    getOwn (disconnectSweep "b" aliceAlone).1 "123" =
      some (aliceRoom "Votación abierta" Vote.null false true false) := by
  have hwf : WellFormed aliceAlone := by unfold WellFormed; decide
  obtain ⟨s1, out1, h1, hkeep, _⟩ := C11_disconnect_frame aliceAlone "b" "123"
    (aliceRoom "Votación abierta" Vote.null false true false) hwf (by rfl) (by rfl)
  simp only [disconnect, Option.some.injEq] at h1
  refine ⟨hwf, ?_⟩
  rw [h1]
  exact hkeep (by rfl)

/-! ## Handlers that name one session -/

/-- A handler that names a session is `targetedEffect` at the value of
`sessions[sid]`, applied to `sessions`. -/
theorem handle_eq_applyEffect (sessions : Registry) (ev : Event) (sid : String)
    (h : ev.target = some sid) :
    handle sessions ev = applyEffect sessions sid (targetedEffect sid ev (lookupSession sessions sid)) := by
  cases ev with
  | join_session c sessionId name d1 d2 =>
    simp only [Event.target] at h
    by_cases ht : truthy sessionId = true
    · obtain ⟨s, rfl, hs⟩ := truthy_eq_true ht
      simp only [ht, if_true, Option.some.injEq] at h
      subst h
      simp only [handle]
      rw [join_session_explicit _ _ _ _ _ _ hs]
      cases lookupSession sessions s <;> rfl
    · simp [ht] at h
  | start_round c sessionId story =>
    simp only [Event.target, Option.some.injEq] at h
    subst h
    simp only [handle, start_round]
    cases lookupSession sessions sessionId <;> rfl
  | submit_vote c sessionId vote =>
    simp only [Event.target, Option.some.injEq] at h
    subst h
    simp only [handle, submit_vote]
    cases hl : lookupSession sessions sessionId with
    | absent => rfl
    | inherited => rfl
    | own room =>
      simp only [targetedEffect]
      split
      · rfl
      · cases getOwn room.players c <;> rfl
  | reveal_cards c sessionId =>
    simp only [Event.target, Option.some.injEq] at h
    subst h
    simp only [handle, reveal_cards]
    cases hl : lookupSession sessions sessionId with
    | absent => rfl
    | inherited => rfl
    | own room =>
      simp only [targetedEffect]
      split <;> rfl
  | reset_round c sessionId =>
    simp only [Event.target, Option.some.injEq] at h
    subst h
    simp only [handle, reset_round]
    cases lookupSession sessions sessionId <;> rfl
  | disconnect c => simp [Event.target] at h

theorem lookupSession_replaceOwn_ne (sessions : Registry) {sid sid1 : String} (room1 : Room)
    (h : sid1 ≠ sid) :
    lookupSession (replaceOwn sessions sid room1) sid1 = lookupSession sessions sid1 := by
  unfold lookupSession
  rw [getOwn_replaceOwn_ne room1 h]

/-- Every emission of a handler that names the session `sid` goes to the
sender or to the Socket.IO room `sid`. -/
theorem targetedEffect_emits (sid : String) (ev : Event) (slot : Slot) (r : Option Room)
    (out : List Emit) (h : targetedEffect sid ev slot = some (r, out)) (sid1 : String)
    (hne : sid1 ≠ sid) : ∀ m ∈ out, Emit.isToRoom sid1 m = false := by
  have hne1 : ¬ sid = sid1 := fun h1 => hne h1.symm
  intro m hm
  cases ev <;> cases slot <;> simp only [targetedEffect] at h <;>
    (try split at h) <;> (try split at h) <;>
    simp only [Option.some.injEq, Prod.mk.injEq, reduceCtorEq] at h <;>
    (try (obtain ⟨_, h2⟩ := h
          subst h2
          simp only [List.mem_singleton, List.not_mem_nil] at hm
          try (subst hm; simp [Emit.isToRoom, hne1])))

/-- A handler that names the session `sid` leaves every other session as it
was and addresses nothing to it. -/
theorem handle_frame {sessions sessions1 : Registry} {ev : Event} {out : List Emit}
    {sid : String} (ht : ev.target = some sid) (h : handle sessions ev = some (sessions1, out))
    {sid1 : String} (hne : sid1 ≠ sid) :
    getOwn sessions1 sid1 = getOwn sessions sid1 ∧ ∀ m ∈ out, Emit.isToRoom sid1 m = false := by
  rw [handle_eq_applyEffect sessions ev sid ht] at h
  cases he : targetedEffect sid ev (lookupSession sessions sid) with
  | none => simp [he, applyEffect] at h
  | some eff =>
    obtain ⟨r, out1⟩ := eff
    have hem := targetedEffect_emits sid ev _ r out1 he sid1 hne
    cases r with
    | none =>
      simp only [he, applyEffect, Option.some.injEq, Prod.mk.injEq] at h
      obtain ⟨h1, h2⟩ := h
      subst h1; subst h2
      exact ⟨rfl, hem⟩
    | some room1 =>
      simp only [he, applyEffect, Option.some.injEq, Prod.mk.injEq] at h
      obtain ⟨h1, h2⟩ := h
      subst h1; subst h2
      exact ⟨getOwn_replaceOwn_ne room1 hne, hem⟩

theorem getOwn_deleteOwn {α : Type} (o : List (String × α)) (c k : String) :
    getOwn (deleteOwn o c) k = if k = c then none else getOwn o k := by
  induction o with
  | nil => simp [deleteOwn, getOwn]
  | cons hd tl ih =>
    obtain ⟨k', v'⟩ := hd
    unfold deleteOwn at ih ⊢
    by_cases hk : k' = c
    · subst hk
      simp only [List.filter_cons, ne_eq, not_true_eq_false, decide_False, Bool.false_eq_true,
        if_false]
      rw [ih]
      by_cases hkk : k = k'
      · simp [hkk]
      · have hkk1 : ¬ k' = k := fun h1 => hkk h1.symm
        simp [getOwn, hkk, hkk1]
    · simp only [List.filter_cons, ne_eq, hk, not_false_eq_true, decide_True, if_true]
      by_cases hkk : k' = k
      · subst hkk
        simp [getOwn, hk]
      · simp only [getOwn, hkk, if_false]
        exact ih

/-! ## C12: votes of a revealed room -/

/-- C12, as stated, fails: Alice voted 5 and the cards are revealed; she
sends `join_session` for her room again and her player is overwritten with
`vote = null`, `hasVoted = false`, although the event is a join. -/
theorem C12_rejoin_clears_vote_counterexample :
    (aliceRoom "Cartas reveladas" (Vote.number 5) true true true).cardsRevealed = true ∧
    handle [("123", aliceRoom "Cartas reveladas" (Vote.number 5) true true true)]
        (Event.join_session "a" (some "123") (some "Alice") [] []) =
      some ([("123", aliceRoom "Cartas reveladas" Vote.null false true true)],
        [Emit.toRoom "123" (Msg.session_state_update
          (aliceRoom "Cartas reveladas" Vote.null false true true))]) ∧
    getOwn (aliceRoom "Cartas reveladas" (Vote.number 5) true true true).players "a" =
      some { id := "a", name := "Alice", vote := Vote.number 5, hasVoted := true } ∧
    getOwn (aliceRoom "Cartas reveladas" Vote.null false true true).players "a" =
      some { id := "a", name := "Alice", vote := Vote.null, hasVoted := false } := by
  refine ⟨rfl, by rfl, by rfl, by rfl⟩

/-- C12 (amended): let the room `R` have `cardsRevealed = true`.  For every
event other than a `start_round` or `reset_round` of `R`, every player that is
in `R` both before and after the event, other than the player of the
connection that sends a `join_session`, has the same `vote` and `hasVoted`
after as before. -/
theorem C12_revealed_votes_frozen (sessions sessions1 : Registry) (R : String) (room room1 : Room)
    (ev : Event) (out : List Emit) (k : String) (p p1 : Player)
    (hwf : WellFormed sessions) (hroom : getOwn sessions R = some room)
    (hrev : room.cardsRevealed = true) (hev : ev.restarts R = false)
    (h : handle sessions ev = some (sessions1, out)) (hroom1 : getOwn sessions1 R = some room1)
    (hp : getOwn room.players k = some p) (hp1 : getOwn room1.players k = some p1)
    (hk : ev.joiner ≠ some k) :
    p1.vote = p.vote ∧ p1.hasVoted = p.hasVoted := by
  have unchanged : getOwn sessions1 R = getOwn sessions R →
      p1.vote = p.vote ∧ p1.hasVoted = p.hasVoted := by
    intro hs
    rw [hs, hroom, Option.some.injEq] at hroom1
    subst hroom1
    rw [hp, Option.some.injEq] at hp1
    subst hp1
    exact ⟨rfl, rfl⟩
  have same : sessions1 = sessions → p1.vote = p.vote ∧ p1.hasVoted = p.hasVoted :=
    fun hs => unchanged (by rw [hs])
  cases ev with
  | join_session c sessionId name d1 d2 =>
    have hkc : k ≠ c := by
      intro hkc
      apply hk
      simp [Event.joiner, hkc]
    by_cases ht : truthy sessionId = true
    · obtain ⟨s, rfl, hs⟩ := truthy_eq_true ht
      by_cases hsr : s = R
      · subst hsr
        simp only [handle] at h
        rw [join_session_explicit _ _ _ _ _ _ hs, lookupSession_eq_own hroom] at h
        simp only [Option.some.injEq, Prod.mk.injEq] at h
        obtain ⟨h1, _⟩ := h
        subst h1
        rw [getOwn_replaceOwn_self _ (by simp [hroom]), Option.some.injEq] at hroom1
        subst hroom1
        simp only [getOwn_setOwn_ne _ _ hkc] at hp1
        rw [hp, Option.some.injEq] at hp1
        subst hp1
        exact ⟨rfl, rfl⟩
      · exact unchanged
          (handle_frame (show (Event.join_session c (some s) name d1 d2).target = some s by
            simp [Event.target, ht]) h (Ne.symm hsr)).1
    · simp only [handle] at h
      rw [join_session_create _ _ _ _ _ _ (by simpa using ht)] at h
      simp only [Option.some.injEq, Prod.mk.injEq] at h
      obtain ⟨h1, _⟩ := h
      subst h1
      by_cases hg : generateUniqueId d1 = R
      · subst hg
        rw [getOwn_setOwn_self, Option.some.injEq] at hroom1
        subst hroom1
        have hc : ¬ c = k := fun h1 => hkc h1.symm
        simp [getOwn, hc] at hp1
      · exact unchanged (getOwn_setOwn_ne _ _ (Ne.symm hg))
  | start_round c sessionId story =>
    have hsr : R ≠ sessionId := by
      intro h1
      simp [Event.restarts, h1] at hev
    exact unchanged
      (handle_frame (show (Event.start_round c sessionId story).target = some sessionId by rfl)
        h hsr).1
  | reset_round c sessionId =>
    have hsr : R ≠ sessionId := by
      intro h1
      simp [Event.restarts, h1] at hev
    exact unchanged
      (handle_frame (show (Event.reset_round c sessionId).target = some sessionId by rfl)
        h hsr).1
  | submit_vote c sessionId vote =>
    by_cases hsr : sessionId = R
    · subst hsr
      simp only [handle, submit_vote, lookupSession_eq_own hroom, hrev, Bool.or_true, if_true,
        Option.some.injEq, Prod.mk.injEq] at h
      exact same h.1.symm
    · exact unchanged
        (handle_frame (show (Event.submit_vote c sessionId vote).target = some sessionId by rfl)
          h (Ne.symm hsr)).1
  | reveal_cards c sessionId =>
    by_cases hsr : sessionId = R
    · subst hsr
      simp only [handle, reveal_cards, lookupSession_eq_own hroom, hrev, Bool.or_true, if_true,
        Option.some.injEq, Prod.mk.injEq] at h
      exact same h.1.symm
    · exact unchanged
        (handle_frame (show (Event.reveal_cards c sessionId).target = some sessionId by rfl)
          h (Ne.symm hsr)).1
  | disconnect c =>
    simp only [handle, disconnect, Option.some.injEq] at h
    have h1 : sessions1 = (disconnectSweep c sessions).1 := by rw [h]
    subst h1
    rw [getOwn_disconnectSweep hwf, hroom] at hroom1
    simp only at hroom1
    split at hroom1
    · simp at hroom1
    · rw [Option.some.injEq] at hroom1
      subst hroom1
      rcases removePlayer_room c R room with hr | hr
      · rw [hr, hp, Option.some.injEq] at hp1
        subst hp1
        exact ⟨rfl, rfl⟩
      · rw [hr] at hp1
        simp only [getOwn_deleteOwn] at hp1
        split at hp1
        · simp at hp1
        · rw [hp, Option.some.injEq] at hp1
          subst hp1
          exact ⟨rfl, rfl⟩

/-- The amended C12 when Bob joins the revealed room `123`: Alice keeps her
vote of 5 and her `hasVoted`. -/
theorem C12_revealed_votes_frozen_witness :
    handle [("123", aliceRoom "Cartas reveladas" (Vote.number 5) true true true)]
        (Event.join_session "b" (some "123") (some "Bob") [] []) =
      some ([("123", aliceAndBobRoom)],
        [Emit.toRoom "123" (Msg.session_state_update aliceAndBobRoom)]) ∧
    (Vote.number 5 = Vote.number 5 ∧ true = true) :=
  ⟨by rfl,
   C12_revealed_votes_frozen
    [("123", aliceRoom "Cartas reveladas" (Vote.number 5) true true true)]
    [("123", aliceAndBobRoom)] "123"
    (aliceRoom "Cartas reveladas" (Vote.number 5) true true true) aliceAndBobRoom
    (Event.join_session "b" (some "123") (some "Bob") [] [])
    [Emit.toRoom "123" (Msg.session_state_update aliceAndBobRoom)] "a"
    { id := "a", name := "Alice", vote := Vote.number 5, hasVoted := true }
    { id := "a", name := "Alice", vote := Vote.number 5, hasVoted := true }
    (by unfold WellFormed; decide) (by rfl) rfl (by rfl) (by rfl) (by rfl) (by rfl) (by rfl)
    (by decide)⟩

/-! ## C13: the generated session id -/

/-- A join that creates a session leaves every session stored under another
key than the generated id as it was. -/
theorem join_session_create_frame (sessions sessions1 : Registry) (c : String)
    (sessionId playerName : Option String) (draw1 draw2 : List (Fin 36)) (out : List Emit)
    (ht : truthy sessionId = false)
    (h : join_session sessions c sessionId playerName draw1 draw2 = some (sessions1, out))
    (sid : String) (hne : sid ≠ generateUniqueId draw1) :
    getOwn sessions1 sid = getOwn sessions sid := by
  rw [join_session_create _ _ _ _ _ _ ht] at h
  simp only [Option.some.injEq, Prod.mk.injEq] at h
  rw [← h.1]
  exact getOwn_setOwn_ne _ _ hne

/-- C13 at the failing input: Alice is voting in the session `123`; Bob joins
without an id and `Math.random()` yields the digits `1`, `2`, `3` again.  The
generated id is the existing key `123`, and the stored session is replaced by
a new one that holds Bob alone: Alice, the story and the flags are lost. -/
theorem C13_generated_id_collision :
    run [] aliceStartsRound =
      some [("123", aliceRoom "Votación abierta" Vote.null false true false)] ∧
    generateUniqueId [1, 2, 3] = "123" ∧
    handle [("123", aliceRoom "Votación abierta" Vote.null false true false)]
        (Event.join_session "b" none (some "Bob") [1, 2, 3] []) =
      some ([("123", { newSession "123" with
                       players := [("b", { id := "b", name := "Bob", vote := Vote.null,
                                           hasVoted := false })] })],
        [Emit.toRoom "123" (Msg.session_state_update
          { newSession "123" with
            players := [("b", { id := "b", name := "Bob", vote := Vote.null,
                                hasVoted := false })] })]) := by
  decide

/-! ## C14: events that raise -/

/-- C14 at the failing input: once Alice has joined (session `123`), a
`join_session` for the identifier `__proto__`, a `start_round` for
`constructor` and a `reset_round` for `hasOwnProperty` each find a member
inherited from `Object.prototype` instead of a session and raise a
`TypeError`; a run that contains such an event does not complete. -/
theorem C14_inherited_name_is_fatal :
    run [] [Event.join_session "a" none (some "Alice") [1, 2, 3] []] =
      some [("123", { newSession "123" with
                      players := [("a", { id := "a", name := "Alice", vote := Vote.null,
                                          hasVoted := false })] })] ∧
    handle [("123", { newSession "123" with
                      players := [("a", { id := "a", name := "Alice", vote := Vote.null,
                                          hasVoted := false })] })]
        (Event.join_session "b" (some "__proto__") (some "Bob") [] []) = none ∧
    handle [("123", { newSession "123" with
                      players := [("a", { id := "a", name := "Alice", vote := Vote.null,
                                          hasVoted := false })] })]
        (Event.start_round "b" "constructor" "Story B") = none ∧
    handle [("123", { newSession "123" with
                      players := [("a", { id := "a", name := "Alice", vote := Vote.null,
                                          hasVoted := false })] })]
        (Event.reset_round "b" "hasOwnProperty") = none ∧
    run [] [Event.join_session "a" none (some "Alice") [1, 2, 3] [],
            Event.start_round "b" "constructor" "Story B",
            Event.reveal_cards "a" "123"] = none := by
  decide

/-! ## C16: resetting a round -/

theorem getOwn_clearVotes (players : List (String × Player)) (k : String) :
    getOwn (clearVotes players) k =
      (getOwn players k).map (fun p => { p with vote := Vote.null, hasVoted := false }) := by
  induction players with
  | nil => rfl
  | cons hd tl ih =>
    obtain ⟨k', p⟩ := hd
    unfold clearVotes at ih ⊢
    by_cases hk : k' = k
    · simp [getOwn, hk]
    · simp only [List.map_cons, getOwn, hk, if_false]
      exact ih

/-- C16: when the room `R` exists, whatever its state, `reset_round` succeeds
and leaves under `R` a room in the Idle state: `currentStory` empty,
`roundActive = false`, `cardsRevealed = false`, the same player keys, every
player with its `id` and `name` and with `vote = null`, `hasVoted = false`. -/
theorem C16_reset_round_returns_to_idle (sessions : Registry) (R : String) (room : Room)
    (hroom : getOwn sessions R = some room) :
    ∃ sessions1 out room1, reset_round sessions R = some (sessions1, out) ∧
      getOwn sessions1 R = some room1 ∧
      room1.currentStory = "" ∧ room1.roundActive = false ∧ room1.cardsRevealed = false ∧
      ownKeys room1.players = ownKeys room.players ∧
      (∀ q ∈ room1.players, q.2.vote = Vote.null ∧ q.2.hasVoted = false) ∧
      ∀ k p, getOwn room.players k = some p →
        ∃ p1, getOwn room1.players k = some p1 ∧ p1.id = p.id ∧ p1.name = p.name := by
  have hreset : reset_round sessions R =
      some (replaceOwn sessions R
          { room with
            currentStory := ""
            status := "Esperando votos..."
            roundActive := false
            cardsRevealed := false
            players := clearVotes room.players },
        [Emit.toRoom R (Msg.session_state_update
          { room with
            currentStory := ""
            status := "Esperando votos..."
            roundActive := false
            cardsRevealed := false
            players := clearVotes room.players })]) := by
    simp only [reset_round, lookupSession_eq_own hroom]
  refine ⟨_, _, _, hreset, getOwn_replaceOwn_self _ (by simp [hroom]), rfl, rfl, rfl,
    ownKeys_clearVotes _, fun q hq => mem_clearVotes hq, ?_⟩
  intro k p hp
  refine ⟨{ p with vote := Vote.null, hasVoted := false }, ?_, rfl, rfl⟩
  simp only [getOwn_clearVotes, hp, Option.map_some']

/-- C16 on the session `123` in the Revealed state with Alice holding a vote. -/
theorem C16_reset_round_returns_to_idle_witness :
    getOwn [("123", aliceRoom "Cartas reveladas" (Vote.number 5) true true true)] "123" =
      some (aliceRoom "Cartas reveladas" (Vote.number 5) true true true) ∧
    ∃ sessions1 out room1,
      reset_round [("123", aliceRoom "Cartas reveladas" (Vote.number 5) true true true)] "123" =
        some (sessions1, out) ∧
      getOwn sessions1 "123" = some room1 ∧
      room1.currentStory = "" ∧ room1.roundActive = false ∧ room1.cardsRevealed = false ∧
      ownKeys room1.players =
        ownKeys (aliceRoom "Cartas reveladas" (Vote.number 5) true true true).players ∧
      (∀ q ∈ room1.players, q.2.vote = Vote.null ∧ q.2.hasVoted = false) ∧
      ∀ k p, getOwn (aliceRoom "Cartas reveladas" (Vote.number 5) true true true).players k =
          some p →
        ∃ p1, getOwn room1.players k = some p1 ∧ p1.id = p.id ∧ p1.name = p.name :=
  ⟨by rfl, C16_reset_round_returns_to_idle _ "123" _ (by rfl)⟩

/-! ## C17: what a disconnect does -/

theorem deleteOwn_of_not_member {α : Type} {o : List (String × α)} {c : String}
    (h : getOwn o c = none) : deleteOwn o c = o := by
  induction o with
  | nil => rfl
  | cons hd tl ih =>
    obtain ⟨k', v'⟩ := hd
    by_cases hk : k' = c
    · simp [getOwn, hk] at h
    · simp only [getOwn, hk, if_false] at h
      unfold deleteOwn at ih ⊢
      simp only [List.filter_cons, ne_eq, hk, not_false_eq_true, decide_True, if_true]
      rw [ih h]

theorem removePlayer_fst (socketId sessionId : String) (room : Room) :
    (removePlayer socketId sessionId room).1 =
      { room with players := deleteOwn room.players socketId } := by
  unfold removePlayer
  split
  · rfl
  · rename_i h
    have hnone : getOwn room.players socketId = none := by simpa using h
    simp only [deleteOwn_of_not_member hnone]

theorem updatesFor_append (sid : String) (xs ys : List Emit) :
    updatesFor sid (xs ++ ys) = updatesFor sid xs + updatesFor sid ys := by
  simp [updatesFor, List.filter_append]

theorem updatesFor_removePlayer (socketId sessionId sid : String) (room : Room) :
    updatesFor sid (removePlayer socketId sessionId room).2 =
      if sessionId = sid ∧ (getOwn room.players socketId).isSome = true then 1 else 0 := by
  unfold removePlayer
  by_cases hp : (getOwn room.players socketId).isSome = true
  · by_cases hs : sessionId = sid
    · simp [hp, hs, updatesFor, Emit.isStateUpdate, Emit.isToRoom]
    · simp [hp, hs, updatesFor, Emit.isStateUpdate, Emit.isToRoom]
  · simp [hp, updatesFor]

theorem disconnectSweep_snd (socketId : String) (sessionId : String) (room : Room)
    (rest : Registry) :
    (disconnectSweep socketId ((sessionId, room) :: rest)).2 =
      (removePlayer socketId sessionId room).2 ++ (disconnectSweep socketId rest).2 := by
  simp only [disconnectSweep]
  split <;> rfl

theorem updatesFor_disconnectSweep {socketId : String} {sessions : Registry}
    (hwf : WellFormed sessions) (sid : String) :
    updatesFor sid (disconnectSweep socketId sessions).2 =
      if holdsPlayer sessions sid socketId = true then 1 else 0 := by
  induction sessions with
  | nil => simp [disconnectSweep, updatesFor, holdsPlayer, getOwn]
  | cons hd tl ih =>
    obtain ⟨k', room⟩ := hd
    have hwf1 : k' ∉ ownKeys tl ∧ WellFormed tl := by
      simpa [WellFormed, ownKeys] using hwf
    rw [disconnectSweep_snd, updatesFor_append, updatesFor_removePlayer, ih hwf1.2]
    by_cases hk : k' = sid
    · subst hk
      have htl : holdsPlayer tl k' socketId = false := by
        simp [holdsPlayer, getOwn_eq_none_of_not_mem hwf1.1]
      rw [htl]
      simp [holdsPlayer, getOwn]
    · have hcons : holdsPlayer ((k', room) :: tl) sid socketId = holdsPlayer tl sid socketId := by
        simp [holdsPlayer, getOwn, hk]
      rw [hcons]
      simp [hk]

theorem isStateUpdate_disconnectSweep (socketId : String) (sessions : Registry) :
    ∀ m ∈ (disconnectSweep socketId sessions).2, m.isStateUpdate = true := by
  induction sessions with
  | nil => simp [disconnectSweep]
  | cons hd tl ih =>
    obtain ⟨k', room⟩ := hd
    intro m hm
    rw [disconnectSweep_snd] at hm
    rcases List.mem_append.mp hm with h1 | h1
    · unfold removePlayer at h1
      split at h1
      · simp only [List.mem_singleton] at h1
        subst h1
        rfl
      · simp at h1
    · exact ih m h1

/-- C17: after the disconnect of `c`, no room of the registry has a player
keyed by `c`; every room that is still there keeps its other players and its
`currentStory`, `status`, `roundActive` and `cardsRevealed`; every emission is
a `session_state_update`, exactly one is addressed to each room that contained
`c`, and none to any other room. -/
theorem C17_disconnect_removes_player (sessions : Registry) (c : String)
    (hwf : WellFormed sessions) :
    ∃ sessions1 out, disconnect sessions c = some (sessions1, out) ∧
      (∀ R room1, getOwn sessions1 R = some room1 →
        getOwn room1.players c = none ∧
        ∃ room, getOwn sessions R = some room ∧
          (∀ k, k ≠ c → getOwn room1.players k = getOwn room.players k) ∧
          room1.currentStory = room.currentStory ∧ room1.status = room.status ∧
          room1.roundActive = room.roundActive ∧ room1.cardsRevealed = room.cardsRevealed) ∧
      (∀ m ∈ out, m.isStateUpdate = true) ∧
      ∀ R, updatesFor R out = if holdsPlayer sessions R c = true then 1 else 0 := by
  refine ⟨_, _, rfl, ?_, isStateUpdate_disconnectSweep c sessions,
    fun R => updatesFor_disconnectSweep hwf R⟩
  intro R room1 h1
  rw [getOwn_disconnectSweep hwf] at h1
  cases hroom : getOwn sessions R with
  | none => simp [hroom] at h1
  | some room =>
    simp only [hroom] at h1
    split at h1
    · simp at h1
    · rw [Option.some.injEq, removePlayer_fst] at h1
      subst h1
      refine ⟨by simp [getOwn_deleteOwn], room, rfl, ?_, rfl, rfl, rfl, rfl⟩
      intro k hk
      simp [getOwn_deleteOwn, hk]

/-- C17 on `aliceAlone` for the connection `a`: one update is addressed to
each of the rooms `7` and `123`, and the room `123`, which is kept, has no
player left. -/
theorem C17_disconnect_removes_player_witness :
    WellFormed aliceAlone ∧
    updatesFor "7" (disconnectSweep "a" aliceAlone).2 = 1 ∧
    updatesFor "123" (disconnectSweep "a" aliceAlone).2 = 1 ∧
    updatesFor "zzz" (disconnectSweep "a" aliceAlone).2 = 0 := by
  have hwf : WellFormed aliceAlone := by unfold WellFormed; decide
  obtain ⟨s1, out, h, _, _, hcount⟩ := C17_disconnect_removes_player aliceAlone "a" hwf
  simp only [disconnect, Option.some.injEq] at h
  have hout : out = (disconnectSweep "a" aliceAlone).2 := by rw [h]
  subst hout
  exact ⟨hwf, by rw [hcount "7"]; rfl, by rw [hcount "123"]; rfl, by rw [hcount "zzz"]; rfl⟩

/-! ## C18: joining an existing room -/

/-- C18, as stated, fails for the room whose id is the empty string (the id
generated when `Math.random()` returns 0): Alice created it; Bob joins with
the explicit `sessionId` `""`, which the handler takes for a missing id, so a
new room `123` is created for him and the room `""` does not get his player. -/
theorem C18_empty_id_counterexample :
    run [] [Event.join_session "a" none (some "Alice") [] []] =
      some [("", { newSession "" with
                   players := [("a", { id := "a", name := "Alice", vote := Vote.null,
                                       hasVoted := false })] })] ∧
    join_session
        [("", { newSession "" with
                players := [("a", { id := "a", name := "Alice", vote := Vote.null,
                                    hasVoted := false })] })]
        "b" (some "") (some "Bob") [1, 2, 3] [] =
      some ([("123", { newSession "123" with
                       players := [("b", { id := "b", name := "Bob", vote := Vote.null,
                                           hasVoted := false })] }),
             ("", { newSession "" with
                    players := [("a", { id := "a", name := "Alice", vote := Vote.null,
                                        hasVoted := false })] })],
        [Emit.toRoom "123" (Msg.session_state_update
          { newSession "123" with
            players := [("b", { id := "b", name := "Bob", vote := Vote.null,
                                hasVoted := false })] })]) ∧
    getOwn ({ newSession "" with
              players := [("a", { id := "a", name := "Alice", vote := Vote.null,
                                  hasVoted := false })] } : Room).players "b" = none := by
  decide

/-- C18 (amended): when the room `R` exists and `R` is not the empty string,
`join_session` by the connection `c` with the `sessionId` `R` succeeds and
stores under `R` a room in which the player keyed by `c` has `id = c`,
`vote = null`, `hasVoted = false` (and the given name when that is non-empty),
every other player is as before, and `currentStory`, `status`, `roundActive`
and `cardsRevealed` are as before. -/
theorem C18_join_existing_room (sessions : Registry) (R c : String) (n : Option String)
    (draw1 draw2 : List (Fin 36)) (room : Room)
    (hroom : getOwn sessions R = some room) (hR : R ≠ "") :
    ∃ sessions1 out room1 p,
      join_session sessions c (some R) n draw1 draw2 = some (sessions1, out) ∧
      getOwn sessions1 R = some room1 ∧
      getOwn room1.players c = some p ∧
      p.id = c ∧ p.vote = Vote.null ∧ p.hasVoted = false ∧
      (∀ name, n = some name → name ≠ "" → p.name = name) ∧
      (∀ k, k ≠ c → getOwn room1.players k = getOwn room.players k) ∧
      room1.currentStory = room.currentStory ∧ room1.status = room.status ∧
      room1.roundActive = room.roundActive ∧ room1.cardsRevealed = room.cardsRevealed := by
  have hjoin := join_session_explicit sessions c R n draw1 draw2 hR
  rw [lookupSession_eq_own hroom] at hjoin
  refine ⟨_, _, _, newPlayer c n draw2, hjoin, getOwn_replaceOwn_self _ (by simp [hroom]),
    getOwn_setOwn_self _ _ _, rfl, rfl, rfl, ?_, ?_, rfl, rfl, rfl, rfl⟩
  · intro name hn hname
    subst hn
    simp [newPlayer, truthy, hname]
  · intro k hk
    exact getOwn_setOwn_ne _ _ hk

/-- The amended C18 when Bob joins the revealed room `123` that holds Alice. -/
theorem C18_join_existing_room_witness :
    "123" ≠ "" ∧
    ∃ sessions1 out room1 p,
      join_session [("123", aliceRoom "Cartas reveladas" (Vote.number 5) true true true)]
        "b" (some "123") (some "Bob") [] [] = some (sessions1, out) ∧
      getOwn sessions1 "123" = some room1 ∧
      getOwn room1.players "b" = some p ∧
      p.id = "b" ∧ p.vote = Vote.null ∧ p.hasVoted = false ∧
      (∀ name, some "Bob" = some name → name ≠ "" → p.name = name) ∧
      (∀ k, k ≠ "b" → getOwn room1.players k =
        getOwn (aliceRoom "Cartas reveladas" (Vote.number 5) true true true).players k) ∧
      room1.currentStory = "Story A" ∧ room1.status = "Cartas reveladas" ∧
      room1.roundActive = true ∧ room1.cardsRevealed = true :=
  ⟨by decide,
   C18_join_existing_room [("123", aliceRoom "Cartas reveladas" (Vote.number 5) true true true)]
    "123" "b" (some "Bob") [] [] (aliceRoom "Cartas reveladas" (Vote.number 5) true true true)
    (by rfl) (by decide)⟩

/-! ## C19: a vote in the Voting state -/

/-- C19: let the room `R` be Voting.  When the connection `c` has a player in
`R`, `submit_vote` with the vote `v` stores that player with `vote = v` and
`hasVoted = true`, its `id` and `name` kept, and changes nothing else: the
other players and `currentStory`, `status`, `roundActive`, `cardsRevealed` of
`R` are as before; the only emission is the broadcast of the room, so no
`vote_error` is emitted.  When `c` has no player in `R`, the registry is
unchanged and nothing is emitted. -/
theorem C19_vote_recorded (sessions : Registry) (R c : String) (v : Vote) (room : Room)
    (hroom : getOwn sessions R = some room) (hactive : room.roundActive = true)
    (hhidden : room.cardsRevealed = false) :
    (∀ p, getOwn room.players c = some p →
      ∃ sessions1 room1,
        submit_vote sessions c R v =
          some (sessions1, [Emit.toRoom R (Msg.session_state_update room1)]) ∧
        getOwn sessions1 R = some room1 ∧
        getOwn room1.players c = some { p with vote := v, hasVoted := true } ∧
        (∀ k, k ≠ c → getOwn room1.players k = getOwn room.players k) ∧
        ownKeys room1.players = ownKeys room.players ∧
        room1.currentStory = room.currentStory ∧ room1.status = room.status ∧
        room1.roundActive = true ∧ room1.cardsRevealed = false ∧
        ∀ R1, R1 ≠ R → getOwn sessions1 R1 = getOwn sessions R1) ∧
    (getOwn room.players c = none → submit_vote sessions c R v = some (sessions, [])) := by
  constructor
  · intro p hp
    have hsubmit : submit_vote sessions c R v =
        some (replaceOwn sessions R
            { room with
              players := replaceOwn room.players c { p with vote := v, hasVoted := true } },
          [Emit.toRoom R (Msg.session_state_update
            { room with
              players := replaceOwn room.players c { p with vote := v, hasVoted := true } })]) := by
      simp [submit_vote, lookupSession_eq_own hroom, hactive, hhidden, hp]
    refine ⟨_, _, hsubmit, getOwn_replaceOwn_self _ (by simp [hroom]),
      getOwn_replaceOwn_self _ (by simp [hp]), ?_, ownKeys_replaceOwn _ _ _, rfl, rfl,
      hactive, hhidden, ?_⟩
    · intro k hk
      exact getOwn_replaceOwn_ne _ hk
    · intro R1 hR1
      exact getOwn_replaceOwn_ne _ hR1
  · intro hp
    simp [submit_vote, lookupSession_eq_own hroom, hactive, hhidden, hp]

/-- C19 at the scenario of the specification: the room `123` is Voting and
Alice submits 5. -/
theorem C19_vote_recorded_witness :
    ∃ sessions1 room1,
      submit_vote [("123", aliceRoom "Votación abierta" Vote.null false true false)]
          "a" "123" (Vote.number 5) =
        some (sessions1, [Emit.toRoom "123" (Msg.session_state_update room1)]) ∧
      getOwn sessions1 "123" = some room1 ∧
      getOwn room1.players "a" =
        some { id := "a", name := "Alice", vote := Vote.number 5, hasVoted := true } ∧
      (∀ k, k ≠ "a" → getOwn room1.players k =
        getOwn (aliceRoom "Votación abierta" Vote.null false true false).players k) ∧
      ownKeys room1.players =
        ownKeys (aliceRoom "Votación abierta" Vote.null false true false).players ∧
      room1.currentStory = "Story A" ∧ room1.status = "Votación abierta" ∧
      room1.roundActive = true ∧ room1.cardsRevealed = false ∧
      ∀ R1, R1 ≠ "123" → getOwn sessions1 R1 =
        getOwn [("123", aliceRoom "Votación abierta" Vote.null false true false)] R1 :=
  (C19_vote_recorded [("123", aliceRoom "Votación abierta" Vote.null false true false)]
    "123" "a" (Vote.number 5) (aliceRoom "Votación abierta" Vote.null false true false)
    (by rfl) rfl rfl).1
    { id := "a", name := "Alice", vote := Vote.null, hasVoted := false } (by rfl)

/-! ## C20: events on different rooms -/

theorem applyEffect_some (sessions : Registry) (sid : String) (r : Option Room)
    (out : List Emit) :
    applyEffect sessions sid (some (r, out)) = some (storeRoom sessions sid r, out) := by
  cases r <;> rfl

theorem lookupSession_storeRoom_ne (sessions : Registry) {sid sid1 : String} (r : Option Room)
    (h : sid1 ≠ sid) : lookupSession (storeRoom sessions sid r) sid1 = lookupSession sessions sid1 := by
  cases r with
  | none => rfl
  | some room1 => exact lookupSession_replaceOwn_ne sessions room1 h

theorem replaceOwn_comm {α : Type} (o : List (String × α)) {k1 k2 : String} (v1 v2 : α)
    (h : k1 ≠ k2) :
    replaceOwn (replaceOwn o k1 v1) k2 v2 = replaceOwn (replaceOwn o k2 v2) k1 v1 := by
  induction o with
  | nil => rfl
  | cons hd tl ih =>
    obtain ⟨k', v'⟩ := hd
    by_cases hk1 : k' = k1
    · subst hk1
      have hk2 : ¬ k' = k2 := h
      simp [replaceOwn, hk2]
    · by_cases hk2 : k' = k2
      · subst hk2
        simp [replaceOwn, hk1]
      · simp only [replaceOwn, hk1, hk2, if_false]
        rw [ih]

theorem storeRoom_comm (sessions : Registry) {sid1 sid2 : String} (r1 r2 : Option Room)
    (h : sid1 ≠ sid2) :
    storeRoom (storeRoom sessions sid1 r1) sid2 r2 =
      storeRoom (storeRoom sessions sid2 r2) sid1 r1 := by
  cases r1 <;> cases r2 <;> simp only [storeRoom]
  exact replaceOwn_comm sessions _ _ h

/-- Two events that name different sessions, run one after the other. -/
theorem run_two_targeted (sessions : Registry) (a1 a2 : Event) (R1 R2 : String)
    (h1 : a1.target = some R1) (h2 : a2.target = some R2) (hne : R1 ≠ R2) :
    run sessions [a1, a2] =
      match targetedEffect R1 a1 (lookupSession sessions R1),
            targetedEffect R2 a2 (lookupSession sessions R2) with
      | some (r1, _), some (r2, _) => some (storeRoom (storeRoom sessions R1 r1) R2 r2)
      | _, _ => none := by
  simp only [run]
  rw [handle_eq_applyEffect sessions a1 R1 h1]
  cases he1 : targetedEffect R1 a1 (lookupSession sessions R1) with
  | none => simp [applyEffect]
  | some eff1 =>
    obtain ⟨r1, out1⟩ := eff1
    rw [applyEffect_some]
    simp only
    rw [handle_eq_applyEffect _ a2 R2 h2, lookupSession_storeRoom_ne sessions r1 (Ne.symm hne)]
    cases he2 : targetedEffect R2 a2 (lookupSession sessions R2) with
    | none => simp [applyEffect]
    | some eff2 =>
      obtain ⟨r2, out2⟩ := eff2
      rw [applyEffect_some]

/-- C20, as stated, fails: a join with the explicit `sessionId` `""` is taken
for a join without id and creates the room `k9`, so it does not commute with
a `start_round` of `k9`, although the two events name different rooms; and its
broadcast is addressed to `k9`, not to the room it names. -/
theorem C20_empty_id_join_counterexample :
    run [] [Event.join_session "b" (some "") (some "Bob") [20, 9] [],
            Event.start_round "b" "k9" "Story B"] =
      some [("k9",
        { id := "k9", name := "Sesión k9", currentStory := "Story B", status := "Votación abierta",
          players := [("b", { id := "b", name := "Bob", vote := Vote.null, hasVoted := false })],
          roundActive := true, cardsRevealed := false })] ∧
    run [] [Event.start_round "b" "k9" "Story B",
            Event.join_session "b" (some "") (some "Bob") [20, 9] []] =
      some [("k9",
        { id := "k9", name := "Sesión k9", currentStory := "", status := "Esperando jugadores...",
          players := [("b", { id := "b", name := "Bob", vote := Vote.null, hasVoted := false })],
          roundActive := false, cardsRevealed := false })] ∧
    updatesFor "k9"
      [Emit.toRoom "k9" (Msg.session_state_update
        { newSession "k9" with
          players := [("b", { id := "b", name := "Bob", vote := Vote.null,
                              hasVoted := false })] })] = 1 ∧
    join_session [] "b" (some "") (some "Bob") [20, 9] [] =
      some ([("k9", { newSession "k9" with
                      players := [("b", { id := "b", name := "Bob", vote := Vote.null,
                                          hasVoted := false })] })],
        [Emit.toRoom "k9" (Msg.session_state_update
          { newSession "k9" with
            players := [("b", { id := "b", name := "Bob", vote := Vote.null,
                                hasVoted := false })] })]) := by
  decide

/-- C20 (amended): let an event be a `start_round`, `submit_vote`,
`reveal_cards` or `reset_round`, or a `join_session` with a non-empty
`sessionId`, and let `R` be the session it names.  When its handler returns,
every session stored under another key `R1` is as before and no emission is
addressed to `R1`.  Two such events that name different sessions commute: run
in either order from any registry they give the same registry, or a handler
raises in both orders. -/
theorem C20_different_rooms_independent :
    (∀ (sessions sessions1 : Registry) (ev : Event) (out : List Emit) (R R1 : String),
      ev.target = some R → handle sessions ev = some (sessions1, out) → R1 ≠ R →
        getOwn sessions1 R1 = getOwn sessions R1 ∧ ∀ m ∈ out, Emit.isToRoom R1 m = false) ∧
    (∀ (sessions : Registry) (a1 a2 : Event) (R1 R2 : String),
      a1.target = some R1 → a2.target = some R2 → R1 ≠ R2 →
        run sessions [a1, a2] = run sessions [a2, a1]) := by
  constructor
  · intro sessions sessions1 ev out R R1 ht h hne
    exact handle_frame ht h hne
  · intro sessions a1 a2 R1 R2 h1 h2 hne
    rw [run_two_targeted sessions a1 a2 R1 R2 h1 h2 hne,
      run_two_targeted sessions a2 a1 R2 R1 h2 h1 (Ne.symm hne)]
    cases targetedEffect R1 a1 (lookupSession sessions R1) with
    | none => cases targetedEffect R2 a2 (lookupSession sessions R2) <;> rfl
    | some eff1 =>
      cases targetedEffect R2 a2 (lookupSession sessions R2) with
      | none => rfl
      | some eff2 =>
        obtain ⟨r1, out1⟩ := eff1
        obtain ⟨r2, out2⟩ := eff2
        simp only
        rw [storeRoom_comm sessions r1 r2 hne]

/-- The amended C20 on `aliceAlone`: starting a round in the room `7` and
revealing the cards of the room `123` leaves the other room as it was, and the
two events give the same registry in either order. -/
theorem C20_different_rooms_independent_witness :
    (getOwn
        [("7", { newSession "7" with
                 currentStory := "Story C"
                 status := "Votación abierta"
                 roundActive := true
                 players := [("a", newPlayer "a" (some "Alice") [])] }),
         ("123", aliceRoom "Votación abierta" Vote.null false true false)] "123" =
      getOwn aliceAlone "123" ∧
      ∀ m ∈ [Emit.toRoom "7" (Msg.session_state_update
          { newSession "7" with
            currentStory := "Story C"
            status := "Votación abierta"
            roundActive := true
            players := [("a", newPlayer "a" (some "Alice") [])] })],
        Emit.isToRoom "123" m = false) ∧
    run aliceAlone [Event.start_round "a" "7" "Story C", Event.reveal_cards "a" "123"] =
      run aliceAlone [Event.reveal_cards "a" "123", Event.start_round "a" "7" "Story C"] :=
  ⟨C20_different_rooms_independent.1 aliceAlone _ (Event.start_round "a" "7" "Story C") _
      "7" "123" rfl (by rfl) (by decide),
   C20_different_rooms_independent.2 aliceAlone (Event.start_round "a" "7" "Story C")
      (Event.reveal_cards "a" "123") "7" "123" rfl rfl (by decide)⟩

/-! ## When a handler returns -/

/-- A handler returns unless the session its event names is read from
`Object.prototype`. -/
theorem handle_returns (sessions : Registry) (ev : Event)
    (h : ∀ sid, ev.target = some sid → lookupSession sessions sid ≠ Slot.inherited) :
    (handle sessions ev).isSome = true := by
  cases ht : ev.target with
  | none =>
    cases ev with
    | join_session c sessionId name d1 d2 =>
      have hf : truthy sessionId = false := by
        cases hb : truthy sessionId with
        | false => rfl
        | true =>
          obtain ⟨s, hs, _⟩ := truthy_eq_true hb
          subst hs
          simp [Event.target, hb] at ht
      simp only [handle]
      rw [join_session_create _ _ _ _ _ _ hf]
      rfl
    | disconnect c => rfl
    | start_round c sessionId story => simp [Event.target] at ht
    | submit_vote c sessionId vote => simp [Event.target] at ht
    | reveal_cards c sessionId => simp [Event.target] at ht
    | reset_round c sessionId => simp [Event.target] at ht
  | some sid =>
    have hs := h sid ht
    rw [handle_eq_applyEffect sessions ev sid ht]
    cases hl : lookupSession sessions sid with
    | inherited => exact absurd hl hs
    | absent =>
      cases ev <;> simp [targetedEffect, applyEffect]
    | own room =>
      cases ev with
      | join_session c sessionId name d1 d2 => simp [targetedEffect, applyEffect]
      | start_round c sessionId story => simp [targetedEffect, applyEffect]
      | submit_vote c sessionId vote =>
        simp only [targetedEffect]
        split
        · rfl
        · cases getOwn room.players c <;> rfl
      | reveal_cards c sessionId =>
        simp only [targetedEffect]
        split <;> rfl
      | reset_round c sessionId => simp [targetedEffect, applyEffect]
      | disconnect c => simp [targetedEffect, applyEffect]

end PokerPlanning
